import Mathlib

/-!
Shallow embedding of the graphos edge-routing engine
(src/graphos/src/edge.py) together with the parts of its environment the
routing code touches.  The `Node` class lives outside the provided
snapshot; everything about it is modelled from the specification and
marked as such.  Machine integers are modelled as `Int` and Python's
floor division `//` as `Int.fdiv`.
-/

namespace Graphos

/-- The four directional corner glyphs (curses ACS_ULCORNER, ACS_URCORNER,
ACS_LLCORNER, ACS_LRCORNER).  The curses constants are distinct nonzero
integers; only their identity matters to the routing engine, so they are
modelled as an enumeration. -/
inductive CornerKind where
  | ulcorner
  | urcorner
  | llcorner
  | lrcorner
deriving DecidableEq, Repr

/-- The `type` field of a `LineSegment`: in Python it is either the string
"horizontal", the string "vertical", or a curses ACS corner-glyph code. -/
inductive SegType where
  | horizontal
  | vertical
  | corner (kind : CornerKind)
deriving DecidableEq, Repr

/-- Modelled from the spec: `Node` is external to the snapshot.  It owns a
position `(x, y)` (top-left reference point), a size `(width, height)`
(invariantly at least 1), a stable `id`, and four "this side is marked as
connected" flags that `reset_edges` clears. -/
structure Node where
  id : String
  x : Int
  y : Int
  width : Int
  height : Int
  top_edge : Bool := false
  bottom_edge : Bool := false
  left_edge : Bool := false
  right_edge : Bool := false
deriving DecidableEq, Repr

/-- Modelled from the spec: the node's derived visual center, the integer
screen coordinate of the middle of its body (corner plus half the size,
with Python floor division). -/
def Node.center_x (n : Node) : Int := n.x + Int.fdiv n.width 2

/-- Modelled from the spec: vertical coordinate of the node's derived
visual center. -/
def Node.center_y (n : Node) : Int := n.y + Int.fdiv n.height 2

/-- Modelled from the spec: `reset_edges` clears any "this side is
connected" markers the node uses for its own border rendering; it touches
no other node state. -/
def Node.reset_edges (n : Node) : Node :=
  { n with top_edge := false, bottom_edge := false,
           left_edge := false, right_edge := false }

/-- The `LineSegment` dataclass of edge.py: a tagged drawable segment. -/
structure LineSegment where
  type : SegType
  x : Int
  y : Int
  length : Int := 0
deriving DecidableEq, Repr

/-- `Edge.__init__` stores `source`, `target` and an id.  The id-defaulting
logic of the constructor is `mkEdge` below. -/
structure Edge where
  source : Node
  target : Node
  id : String
deriving DecidableEq, Repr

/-- `Edge.__init__`: `self.id = edge_id if edge_id else str(uuid.uuid4())`.
`none` models Python `None`; the freshly generated uuid string is passed in
as `fresh`. -/
def mkEdge (source target : Node) (edge_id : Option String) (fresh : String) : Edge :=
  { source := source, target := target,
    id := match edge_id with
          | some s => if s = "" then fresh else s
          | none => fresh }

/-- `Edge._determine_relative_nodes`: picks left/right by comparing the
nodes' `x` and top/bottom by comparing their `y`.  Returns
(left, right, top, bottom). -/
def determine_relative_nodes (node_1 node_2 : Node) : Node × Node × Node × Node :=
  (if node_1.x < node_2.x then node_1 else node_2,
   if node_1.x < node_2.x then node_2 else node_1,
   if node_1.y < node_2.y then node_1 else node_2,
   if node_1.y < node_2.y then node_2 else node_1)

/-- `Edge._determine_corner_types`: corner pair for the vertical-biased
connection, keyed on the top and bottom nodes' `center_x`. -/
def determine_corner_types (top_node bottom_node : Node) :
    Option CornerKind × Option CornerKind :=
  if top_node.center_x > bottom_node.center_x then
    (some .lrcorner, some .ulcorner)
  else if top_node.center_x < bottom_node.center_x then
    (some .llcorner, some .urcorner)
  else
    (none, none)

/-- `Edge._determine_horizontal_corner_types`: corner pair for the
horizontal-biased connection, keyed on the left and right nodes'
`center_y`. -/
def determine_horizontal_corner_types (left_node right_node : Node) :
    Option CornerKind × Option CornerKind :=
  if left_node.center_y > right_node.center_y then
    (some .lrcorner, some .ulcorner)
  else if left_node.center_y < right_node.center_y then
    (some .urcorner, some .llcorner)
  else
    (none, none)

/-- `Edge._has_vertical_bias`: `x_diff == 0 or x_diff <= y_diff`. -/
def has_vertical_bias (x_diff y_diff : Int) : Bool :=
  x_diff == 0 || x_diff ≤ y_diff

/-- `Edge._create_vertical_connection`.  The Python mutates `y_diff_1` and
`y_diff_2` in place; the successive values are the primed lets. -/
def create_vertical_connection (left_node right_node top_node bottom_node : Node)
    (x_diff y_diff : Int) : List LineSegment :=
  let y_diff_1 := Int.fdiv y_diff 2
  let y_diff_2 := y_diff - y_diff_1
  let y_diff_1' := y_diff_1 - Int.fdiv top_node.height 2
  let y_diff_2' := y_diff_2 - Int.fdiv bottom_node.height 2
  let corners := determine_corner_types top_node bottom_node
  let h_line_x :=
    if left_node.center_x < right_node.center_x then left_node.center_x
    else right_node.center_x + 1
  let h_line_y := bottom_node.center_y - y_diff_2' - Int.fdiv bottom_node.height 2
  let crossbar : LineSegment := ⟨.horizontal, h_line_x, h_line_y, x_diff⟩
  match corners with
  | (some top_corner, some bottom_corner) =>
    let cornerTop : LineSegment :=
      ⟨.corner top_corner, top_node.center_x,
       top_node.center_y + Int.fdiv top_node.height 2 + y_diff_1', 0⟩
    let y_diff_1'' := y_diff_1' - 1
    let y_diff_2'' := y_diff_2' - 1
    let cornerBottom : LineSegment :=
      ⟨.corner bottom_corner, bottom_node.center_x,
       bottom_node.center_y - y_diff_2'' - Int.fdiv bottom_node.height 2 - 1, 0⟩
    [crossbar, cornerTop, cornerBottom,
     ⟨.vertical, top_node.center_x,
      top_node.center_y + Int.fdiv top_node.height 2 + 1, y_diff_1''⟩,
     ⟨.vertical, bottom_node.center_x,
      bottom_node.center_y - y_diff_2'' - Int.fdiv bottom_node.height 2, y_diff_2''⟩]
  | _ =>
    [crossbar,
     ⟨.vertical, top_node.center_x,
      top_node.center_y + Int.fdiv top_node.height 2 + 1, y_diff_1'⟩,
     ⟨.vertical, bottom_node.center_x,
      bottom_node.center_y - y_diff_2' - Int.fdiv bottom_node.height 2, y_diff_2'⟩]

/-- `Edge._create_horizontal_connection`.  Note that inside the corner
branch only `x_diff_2` is decremented; the first horizontal run has already
been emitted with the undecremented `x_diff_1`. -/
def create_horizontal_connection (left_node right_node top_node bottom_node : Node)
    (x_diff y_diff : Int) : List LineSegment :=
  let x_diff_1 := Int.fdiv x_diff 2
  let x_diff_2 := x_diff - x_diff_1
  let x_diff_1' := x_diff_1 - Int.fdiv left_node.width 2
  let x_diff_2' := x_diff_2 - Int.fdiv right_node.width 2
  let run1 : LineSegment :=
    ⟨.horizontal, left_node.center_x + Int.fdiv left_node.width 2,
     left_node.center_y, x_diff_1'⟩
  let corners := determine_horizontal_corner_types left_node right_node
  let v_line_x := right_node.center_x - x_diff_2' - Int.fdiv right_node.width 2
  let v_line_y :=
    if bottom_node.center_y < top_node.center_y then bottom_node.center_y
    else top_node.center_y + 1
  let crossbar : LineSegment := ⟨.vertical, v_line_x, v_line_y, |v_line_y + y_diff - v_line_y|⟩
  match corners with
  | (some left_corner, some right_corner) =>
    let x_diff_2'' := x_diff_2' - 1
    let cornerLeft : LineSegment :=
      ⟨.corner left_corner,
       left_node.center_x + Int.fdiv left_node.width 2 + x_diff_1',
       left_node.center_y, 0⟩
    let cornerRight : LineSegment :=
      ⟨.corner right_corner,
       right_node.center_x - x_diff_2'' - Int.fdiv right_node.width 2 - 1,
       right_node.center_y, 0⟩
    [run1, crossbar, cornerLeft, cornerRight,
     ⟨.horizontal, right_node.center_x - x_diff_2'' - Int.fdiv right_node.width 2,
      right_node.center_y, x_diff_2''⟩]
  | _ =>
    [run1, crossbar,
     ⟨.horizontal, right_node.center_x - x_diff_2' - Int.fdiv right_node.width 2,
      right_node.center_y, x_diff_2'⟩]

/-- The `x_diff` of `Edge.get_line_breakdown`:
`abs(right_node.center_x - left_node.center_x)`. -/
def edge_x_diff (node_1 node_2 : Node) : Int :=
  let rel := determine_relative_nodes node_1 node_2
  |rel.2.1.center_x - rel.1.center_x|

/-- The `y_diff` of `Edge.get_line_breakdown`:
`abs(bottom_node.center_y - top_node.center_y)`. -/
def edge_y_diff (node_1 node_2 : Node) : Int :=
  let rel := determine_relative_nodes node_1 node_2
  |rel.2.2.2.center_y - rel.2.2.1.center_y|

/-- The geometric part of `Edge.get_line_breakdown`: relative positions,
distances, bias, and dispatch to the matching connector.  The final
dict-conversion step of the Python copies the four fields verbatim, so the
segment list itself is the faithful model of the return value. -/
def get_line_breakdown (node_1 node_2 : Node) : List LineSegment :=
  let rel := determine_relative_nodes node_1 node_2
  let left_node := rel.1
  let right_node := rel.2.1
  let top_node := rel.2.2.1
  let bottom_node := rel.2.2.2
  let x_diff := |right_node.center_x - left_node.center_x|
  let y_diff := |bottom_node.center_y - top_node.center_y|
  if has_vertical_bias x_diff y_diff then
    create_vertical_connection left_node right_node top_node bottom_node x_diff y_diff
  else
    create_horizontal_connection left_node right_node top_node bottom_node x_diff y_diff

/-- One component of the endpoint pair mutated by
`Edge.get_line_breakdown`: `false` addresses `source` (`node_1`), `true`
addresses `target` (`node_2`). -/
def reset_component (idx : Bool) (s : Node × Node) : Node × Node :=
  if idx then (s.1, s.2.reset_edges) else (s.1.reset_edges, s.2)

/-- The node-state effect of `Edge.get_line_breakdown`: under vertical
bias `top_node.reset_edges()` then `bottom_node.reset_edges()` run, under
horizontal bias `left_node.reset_edges()` then
`right_node.reset_edges()`.  The relative names alias the two endpoints,
so the mutation is modelled by updating the endpoint the Python local
refers to.  The commented-out `*_edge = True` lines of the source set
nothing afterward. -/
def get_line_breakdown_states (node_1 node_2 : Node) : Node × Node :=
  let rel := determine_relative_nodes node_1 node_2
  let x_diff := |rel.2.1.center_x - rel.1.center_x|
  let y_diff := |rel.2.2.2.center_y - rel.2.2.1.center_y|
  let left_idx : Bool := !decide (node_1.x < node_2.x)
  let right_idx : Bool := decide (node_1.x < node_2.x)
  let top_idx : Bool := !decide (node_1.y < node_2.y)
  let bottom_idx : Bool := decide (node_1.y < node_2.y)
  if has_vertical_bias x_diff y_diff then
    reset_component bottom_idx (reset_component top_idx (node_1, node_2))
  else
    reset_component right_idx (reset_component left_idx (node_1, node_2))

/-- The panning offset of offset.py. -/
structure Offset where
  x : Int
  y : Int
deriving DecidableEq, Repr

/-- A curses window as the routing code observes it: `getmaxyx()` returns
`(rows, cols)`. -/
structure Win where
  rows : Int
  cols : Int
deriving DecidableEq, Repr

/-- `utils.get_safe_x`: clamp an x coordinate into `[0, cols - 1]`. -/
def get_safe_x (w : Win) (x : Int) : Int :=
  if x < 0 then 0 else if x ≥ w.cols then w.cols - 1 else x

/-- `utils.get_safe_y`: clamp a y coordinate into `[0, rows - 1]`. -/
def get_safe_y (w : Win) (y : Int) : Int :=
  if y < 0 then 0 else if y ≥ w.rows then w.rows - 1 else y

/-- A draw call issued to the curses window: `win.vline`, `win.hline`, or
`win.addch` of a corner glyph. -/
inductive DrawCall where
  | vline (y x : Int) (n : Int)
  | hline (y x : Int) (n : Int)
  | addch (y x : Int) (k : CornerKind)
deriving DecidableEq, Repr

/-- `Edge.connect_nodes`, modelled as the list of draw calls it issues to
the window, in order: each run segment becomes one `vline`/`hline` call
with the clamp deduction subtracted from its length (issued
unconditionally), and each corner glyph becomes an `addch` call unless
its unclamped normalized position falls outside the window. -/
def connect_nodes (node_1 node_2 : Node) (off : Offset) (w : Win) : List DrawCall :=
  (get_line_breakdown node_1 node_2).flatMap (fun line =>
    let normalized_x := line.x - off.x
    let normalized_y := line.y - off.y
    let diff_deduction_x := |get_safe_x w normalized_x - normalized_x|
    let diff_deduction_y := |get_safe_y w normalized_y - normalized_y|
    match line.type with
    | .vertical =>
      [.vline (get_safe_y w normalized_y) (get_safe_x w normalized_x)
        (line.length - diff_deduction_y)]
    | .horizontal =>
      [.hline (get_safe_y w normalized_y) (get_safe_x w normalized_x)
        (line.length - diff_deduction_x)]
    | .corner k =>
      if normalized_x < 0 ∨ normalized_y < 0 ∨
          normalized_x ≥ w.cols ∨ normalized_y ≥ w.rows then []
      else [.addch (get_safe_y w normalized_y) (get_safe_x w normalized_x) k])

/-- A character cell of the terminal. -/
structure Cell where
  x : Int
  y : Int
deriving DecidableEq, Repr

/-- Modelled from the spec: the cells a draw call inks.  A horizontal run
of length `n` extends rightward, a vertical run downward; a run with
non-positive length draws nothing. -/
def DrawCall.cells : DrawCall → List Cell
  | .vline y x n => (List.range n.toNat).map (fun i : Nat => ⟨x, y + (i : Int)⟩)
  | .hline y x n => (List.range n.toNat).map (fun i : Nat => ⟨x + (i : Int), y⟩)
  | .addch y x _ => [⟨x, y⟩]

/-- All cells inked by a list of draw calls. -/
def draw_calls_cells (calls : List DrawCall) : List Cell :=
  calls.flatMap DrawCall.cells

/-- Whether a draw call inks at least one cell when it is a run: runs with
non-positive length are inkless. -/
def has_ink : DrawCall → Bool
  | .vline _ _ n => decide (0 < n)
  | .hline _ _ n => decide (0 < n)
  | .addch _ _ _ => true

/-- Modelled from the spec: the cells a drawn segment occupies in world
coordinates, before viewport offsetting and clamping.  Runs of
non-positive length occupy nothing. -/
def LineSegment.cells (s : LineSegment) : List Cell :=
  match s.type with
  | .horizontal =>
    (List.range s.length.toNat).map (fun i : Nat => ⟨s.x + (i : Int), s.y⟩)
  | .vertical =>
    (List.range s.length.toNat).map (fun i : Nat => ⟨s.x, s.y + (i : Int)⟩)
  | .corner _ => [⟨s.x, s.y⟩]

/-- All cells occupied by a segment list. -/
def segments_cells (segs : List LineSegment) : List Cell :=
  segs.flatMap LineSegment.cells

/-- Number of straight-run segments (horizontal or vertical) in a segment
list. -/
def run_count (segs : List LineSegment) : Nat :=
  (segs.filter (fun s => match s.type with | .corner _ => false | _ => true)).length

/-- Number of corner-glyph segments in a segment list. -/
def corner_count (segs : List LineSegment) : Nat :=
  (segs.filter (fun s => match s.type with | .corner _ => true | _ => false)).length

/-- One step of a continuous path: the two cells coincide or are
four-neighbour adjacent. -/
def adjb (c d : Cell) : Bool :=
  (c.x == d.x && (c.y - d.y == 1 || d.y - c.y == 1 || c.y == d.y)) ||
  (c.y == d.y && (c.x - d.x == 1 || d.x - c.x == 1))

/-- Modelled from the spec: the rectangular body of a node, the cells
within half its size of its center, as the routing arithmetic addresses
it. -/
def in_body (n : Node) (c : Cell) : Bool :=
  decide (n.center_x - Int.fdiv n.width 2 ≤ c.x) &&
  decide (c.x ≤ n.center_x + Int.fdiv n.width 2) &&
  decide (n.center_y - Int.fdiv n.height 2 ≤ c.y) &&
  decide (c.y ≤ n.center_y + Int.fdiv n.height 2)

/-- A cell touches a node when it lies in the node's body or is adjacent
to a body cell (i.e. it sits on the node's boundary). -/
def touches_body (n : Node) (c : Cell) : Prop :=
  in_body n c = true ∨ ∃ d, in_body n d = true ∧ adjb c d = true

/-- The drawn cells contain a single connected path joining the bodies of
the two nodes: a nonempty chain of pairwise-adjacent drawn cells whose
first cell touches `a` and whose last cell touches `b`. -/
def connects_bodies (cells : List Cell) (a b : Node) : Prop :=
  ∃ p : List Cell, p ≠ [] ∧ (∀ c ∈ p, c ∈ cells) ∧
    List.Chain' (fun c d => adjb c d = true) p ∧
    (∃ c, p.head? = some c ∧ touches_body a c) ∧
    (∃ c, p.getLast? = some c ∧ touches_body b c)

/-- The run type that carries the two half-runs of the chosen connector:
vertical runs under vertical bias, horizontal runs under horizontal bias
(the crossbar has the opposite type). -/
def half_run_type (n1 n2 : Node) : SegType :=
  if has_vertical_bias (edge_x_diff n1 n2) (edge_y_diff n1 n2) then .vertical
  else .horizontal

/-- Example node: one of two exactly coincident nodes. -/
def exGhostA : Node := { id := "ghost-a", x := 0, y := 0, width := 4, height := 2 }

/-- Example node: the second of two exactly coincident nodes. -/
def exGhostB : Node := { id := "ghost-b", x := 0, y := 0, width := 4, height := 2 }

/-- JSON values as the persistence layer consumes them. -/
inductive Json where
  | str (s : String)
  | num (n : Int)
  | obj (members : List (String × Json))
  | nul

/-- Python `isinstance(v, dict)`. -/
def Json.isObj : Json → Bool
  | .obj _ => true
  | _ => false

/-- Python `v[k]` lookup combined with the `k in v` membership test:
`none` when the key is absent or the value is not a dict. -/
def Json.getKey? : Json → String → Option Json
  | .obj ms, k => ms.lookup k
  | _, _ => none

/-- Python `node.id == v` for a JSON value `v`: only a string value can
equal the node's string id. -/
def Json.eqString : Json → String → Bool
  | .str s, t => s == t
  | _, _ => false

/-- Modelled from the spec: the textual image Python's f-string gives a
JSON id value inside the not-found message.  Faithful for the string and
numeric ids the format produces. -/
def Json.pyStr : Json → String
  | .str s => s
  | .num n => toString n
  | .obj _ => "dict"
  | .nul => "None"

/-- Truthiness-based id normalization of `Edge.__init__` applied to a
JSON id value: a falsy value (empty string, zero, empty dict, null) is
replaced by the fresh uuid, via `none`.  Python stores the raw value as
`self.id`; the model, whose edge ids are strings, stores its textual
image, which coincides for the string ids the format produces. -/
def Json.truthyIdString : Json → Option String
  | .str s => if s = "" then none else some s
  | .num n => if n = 0 then none else some (toString n)
  | .obj ms => if ms.isEmpty then none else some (Json.pyStr (.obj ms))
  | .nul => none

/-- Modelled from the spec: `Node.to_json` produces an object carrying
the node's `id` (further members are irrelevant to edge
deserialization and elided). -/
def Node.to_json (n : Node) : Json :=
  .obj [("id", .str n.id)]

/-- `Edge.to_json`. -/
def Edge.to_json (e : Edge) : Json :=
  .obj [("id", .str e.id), ("source", e.source.to_json), ("target", e.target.to_json)]

/-- A raised Python exception: `ValueError(msg)` or `KeyError(key)`. -/
inductive PyErr where
  | valueError (msg : String)
  | keyError (key : String)
deriving DecidableEq, Repr

/-- `Edge.from_json`, step for step: the structure checks raise
`ValueError` with the format messages, the node lookups raise
`ValueError` with the not-found message, the final `data["id"]` access
raises `KeyError` when the key is absent, and otherwise the constructor
runs with the found node objects. -/
def from_json (data : Json) (nodes : List Node) (fresh : String) : Except PyErr Edge :=
  if !data.isObj then
    .error (.valueError "Invalid data format. Expected a dictionary.")
  else if (data.getKey? "source").isNone || (data.getKey? "target").isNone then
    .error (.valueError "Invalid data format. Expected 'source' and 'target' keys.")
  else
    let src := (data.getKey? "source").getD .nul
    let tgt := (data.getKey? "target").getD .nul
    if !src.isObj || !tgt.isObj then
      .error (.valueError "Invalid data format. Expected 'source' and 'target' to be dictionaries.")
    else if (src.getKey? "id").isNone || (tgt.getKey? "id").isNone then
      .error (.valueError "Invalid data format. Expected 'id' key in 'source' and 'target'.")
    else
      let sid := (src.getKey? "id").getD .nul
      let tid := (tgt.getKey? "id").getD .nul
      match nodes.find? (fun n => sid.eqString n.id) with
      | none => .error (.valueError ("Node with id " ++ sid.pyStr ++ " not found."))
      | some source_node =>
        match nodes.find? (fun n => tid.eqString n.id) with
        | none => .error (.valueError ("Node with id " ++ tid.pyStr ++ " not found."))
        | some target_node =>
          match data.getKey? "id" with
          | none => .error (.keyError "id")
          | some idv => .ok (mkEdge source_node target_node idv.truthyIdString fresh)

/-- The well-formedness the format checks of `from_json` require: the
data is an object, has `source` and `target` members that are objects,
and each of those has an `id` member. -/
def struct_ok (data : Json) : Bool :=
  data.isObj &&
  !(data.getKey? "source").isNone && !(data.getKey? "target").isNone &&
  ((data.getKey? "source").getD .nul).isObj &&
  ((data.getKey? "target").getD .nul).isObj &&
  !(((data.getKey? "source").getD .nul).getKey? "id").isNone &&
  !(((data.getKey? "target").getD .nul).getKey? "id").isNone

/-- The referenced source id value of structurally valid data. -/
def source_id_value (data : Json) : Json :=
  (((data.getKey? "source").getD .nul).getKey? "id").getD .nul

/-- The referenced target id value of structurally valid data. -/
def target_id_value (data : Json) : Json :=
  (((data.getKey? "target").getD .nul).getKey? "id").getD .nul

/-- The deserialization result is a malformed-structure (format) error:
a `ValueError` carrying one of the four `Invalid data format.` messages. -/
def is_format_error (r : Except PyErr Edge) : Prop :=
  r = .error (.valueError "Invalid data format. Expected a dictionary.") ∨
  r = .error (.valueError "Invalid data format. Expected 'source' and 'target' keys.") ∨
  r = .error (.valueError "Invalid data format. Expected 'source' and 'target' to be dictionaries.") ∨
  r = .error (.valueError "Invalid data format. Expected 'id' key in 'source' and 'target'.")

/-- The deserialization result is a dangling-reference (not-found) error:
a `ValueError` carrying a `Node with id ... not found.` message. -/
def is_not_found_error (r : Except PyErr Edge) : Prop :=
  ∃ s, r = .error (.valueError ("Node with id " ++ s ++ " not found."))

/-- The corner glyphs occurring in a segment list, in emission order. -/
def corner_kinds (segs : List LineSegment) : List CornerKind :=
  segs.filterMap (fun s => match s.type with | .corner k => some k | _ => none)

/-- The lengths of the run segments of the given run type, in emission
order. -/
def run_lengths (t : SegType) (segs : List LineSegment) : List Int :=
  (segs.filter (fun s => decide (s.type = t))).map (fun s => s.length)

/-- Reflection of a corner glyph across a vertical axis (left/right
mirror). -/
def mirror_x : CornerKind → CornerKind
  | .ulcorner => .urcorner
  | .urcorner => .ulcorner
  | .llcorner => .lrcorner
  | .lrcorner => .llcorner

/-- Reflection of a corner glyph across a horizontal axis (top/bottom
mirror). -/
def mirror_y : CornerKind → CornerKind
  | .ulcorner => .llcorner
  | .llcorner => .ulcorner
  | .urcorner => .lrcorner
  | .lrcorner => .urcorner

/-- Example node: wide node whose top-left corner is left of `exNarrow`
but whose center is right of it. -/
def exWide : Node := { id := "wide", x := 0, y := 0, width := 10, height := 2 }

/-- Example node: narrow node; see `exWide`. -/
def exNarrow : Node := { id := "narrow", x := 1, y := 0, width := 2, height := 2 }

/-- Example node: left endpoint of a horizontally biased connection with
corners. -/
def exLeft : Node := { id := "left", x := 0, y := 0, width := 4, height := 2 }

/-- Example node: right endpoint of a horizontally biased connection with
corners. -/
def exRight : Node := { id := "right", x := 20, y := 10, width := 4, height := 2 }

/-- Example node: upper endpoint of a straight vertically biased
connection. -/
def exTop : Node := { id := "top", x := 0, y := 0, width := 4, height := 2 }

/-- Example node: lower endpoint of a straight vertically biased
connection (same center column as `exTop`). -/
def exBottom : Node := { id := "bottom", x := 0, y := 10, width := 4, height := 2 }

/-- Example node: upper endpoint of a vertically biased connection with
corners. -/
def exTopK : Node := { id := "topk", x := 0, y := 0, width := 4, height := 2 }

/-- Example node: lower endpoint of a vertically biased connection with
corners (offset three columns from `exTopK`). -/
def exBottomK : Node := { id := "bottomk", x := 3, y := 10, width := 4, height := 2 }

end Graphos

namespace Graphos

/-- Claim C1: for every pair of nodes the routing engine chooses vertical
bias if and only if `x_diff == 0 or x_diff <= y_diff`; ties select the
vertical connector and the choice is deterministic (it is a function of
the two distances).  Stated on the code's own bias predicate applied to
the distances computed by `get_line_breakdown`. -/
theorem claim_C1_has_vertical_bias (n1 n2 : Node) :
    has_vertical_bias (edge_x_diff n1 n2) (edge_y_diff n1 n2) = true ↔
      (edge_x_diff n1 n2 = 0 ∨ edge_x_diff n1 n2 ≤ edge_y_diff n1 n2) := by
  simp [has_vertical_bias]

/-- Claim C2, counterexample: the router's left/right ordering is by the
nodes' `x` (top-left corner), not by `center_x`.  With a wide first node
the router's "left" node has strictly larger `center_x` than its "right"
node, so no comparison of `center_x` values can be what determines the
ordering. -/
theorem claim_C2_counterexample :
    (determine_relative_nodes exWide exNarrow).2.1.center_x <
      (determine_relative_nodes exWide exNarrow).1.center_x := by decide

/-- Claim C2 as amended: left/right are ordered by the nodes' `x` and
top/bottom independently by their `y` (so the orderings need not agree),
and the distances `x_diff`, `y_diff` nevertheless equal the absolute
differences of the two nodes' centers. -/
theorem claim_C2_amended (n1 n2 : Node) :
    ((determine_relative_nodes n1 n2).1.x ≤ (determine_relative_nodes n1 n2).2.1.x ∧
      (determine_relative_nodes n1 n2).2.2.1.y ≤ (determine_relative_nodes n1 n2).2.2.2.y) ∧
    (((determine_relative_nodes n1 n2).1, (determine_relative_nodes n1 n2).2.1) = (n1, n2) ∨
      ((determine_relative_nodes n1 n2).1, (determine_relative_nodes n1 n2).2.1) = (n2, n1)) ∧
    (((determine_relative_nodes n1 n2).2.2.1, (determine_relative_nodes n1 n2).2.2.2) = (n1, n2) ∨
      ((determine_relative_nodes n1 n2).2.2.1, (determine_relative_nodes n1 n2).2.2.2) = (n2, n1)) ∧
    edge_x_diff n1 n2 = |n2.center_x - n1.center_x| ∧
    edge_y_diff n1 n2 = |n2.center_y - n1.center_y| := by
  by_cases hx : n1.x < n2.x <;> by_cases hy : n1.y < n2.y <;>
    simp [determine_relative_nodes, edge_x_diff, edge_y_diff, hx, hy, abs_sub_comm] <;>
    omega

/-- Claim C3: in a vertically biased connection, equal `center_x` of top
and bottom node produces zero corner glyphs, unequal `center_x` produces
exactly the two glyphs listed, and the pair for top-right-of-bottom is the
`mirror_x` image of the pair for top-left-of-bottom; symmetrically, the
horizontal connector is keyed on `center_y` of left and right node with
`mirror_y` relating the two pairs. -/
theorem claim_C3_corner_pairs (n1 n2 : Node) :
    (has_vertical_bias (edge_x_diff n1 n2) (edge_y_diff n1 n2) = true →
      ((determine_relative_nodes n1 n2).2.2.1.center_x =
          (determine_relative_nodes n1 n2).2.2.2.center_x →
        corner_kinds (get_line_breakdown n1 n2) = []) ∧
      ((determine_relative_nodes n1 n2).2.2.2.center_x <
          (determine_relative_nodes n1 n2).2.2.1.center_x →
        corner_kinds (get_line_breakdown n1 n2) =
          [CornerKind.lrcorner, CornerKind.ulcorner]) ∧
      ((determine_relative_nodes n1 n2).2.2.1.center_x <
          (determine_relative_nodes n1 n2).2.2.2.center_x →
        corner_kinds (get_line_breakdown n1 n2) =
          [CornerKind.llcorner, CornerKind.urcorner])) ∧
    (has_vertical_bias (edge_x_diff n1 n2) (edge_y_diff n1 n2) = false →
      ((determine_relative_nodes n1 n2).1.center_y =
          (determine_relative_nodes n1 n2).2.1.center_y →
        corner_kinds (get_line_breakdown n1 n2) = []) ∧
      ((determine_relative_nodes n1 n2).2.1.center_y <
          (determine_relative_nodes n1 n2).1.center_y →
        corner_kinds (get_line_breakdown n1 n2) =
          [CornerKind.lrcorner, CornerKind.ulcorner]) ∧
      ((determine_relative_nodes n1 n2).1.center_y <
          (determine_relative_nodes n1 n2).2.1.center_y →
        corner_kinds (get_line_breakdown n1 n2) =
          [CornerKind.urcorner, CornerKind.llcorner])) ∧
    List.map mirror_x [CornerKind.llcorner, CornerKind.urcorner] =
      [CornerKind.lrcorner, CornerKind.ulcorner] ∧
    List.map mirror_y [CornerKind.urcorner, CornerKind.llcorner] =
      [CornerKind.lrcorner, CornerKind.ulcorner] := by
  refine ⟨?_, ?_, by decide, by decide⟩
  · intro hb
    have hb' : has_vertical_bias
        |(determine_relative_nodes n1 n2).2.1.center_x -
          (determine_relative_nodes n1 n2).1.center_x|
        |(determine_relative_nodes n1 n2).2.2.2.center_y -
          (determine_relative_nodes n1 n2).2.2.1.center_y| = true := by
      simpa [edge_x_diff, edge_y_diff] using hb
    refine ⟨?_, ?_, ?_⟩
    · intro hc
      simp [get_line_breakdown, hb', create_vertical_connection,
        determine_corner_types, corner_kinds, hc]
    · intro hc
      simp [get_line_breakdown, hb', create_vertical_connection,
        determine_corner_types, corner_kinds, hc, lt_asymm hc]
    · intro hc
      simp [get_line_breakdown, hb', create_vertical_connection,
        determine_corner_types, corner_kinds, hc, lt_asymm hc]
  · intro hb
    have hb' : has_vertical_bias
        |(determine_relative_nodes n1 n2).2.1.center_x -
          (determine_relative_nodes n1 n2).1.center_x|
        |(determine_relative_nodes n1 n2).2.2.2.center_y -
          (determine_relative_nodes n1 n2).2.2.1.center_y| = false := by
      simpa [edge_x_diff, edge_y_diff] using hb
    refine ⟨?_, ?_, ?_⟩
    · intro hc
      simp [get_line_breakdown, hb', create_horizontal_connection,
        determine_horizontal_corner_types, corner_kinds, hc]
    · intro hc
      simp [get_line_breakdown, hb', create_horizontal_connection,
        determine_horizontal_corner_types, corner_kinds, hc, lt_asymm hc]
    · intro hc
      simp [get_line_breakdown, hb', create_horizontal_connection,
        determine_horizontal_corner_types, corner_kinds, hc, lt_asymm hc]

/-- Claim C3 witness: a concrete vertically biased connection whose top
node's center is left of the bottom node's center yields exactly the
bottom-left/top-right corner pair. -/
theorem claim_C3_corner_pairs_witness :
    corner_kinds (get_line_breakdown exTopK exBottomK) =
      [CornerKind.llcorner, CornerKind.urcorner] :=
  ((claim_C3_corner_pairs exTopK exBottomK).1 (by decide)).2.2 (by decide)

/-- Claim C4, counterexample: a horizontally biased connection with
corner glyphs whose half-lengths before the corner adjustment are
`x1 = 8` and `x2 = 8`.  The claim predicts both half-runs decremented to
`[7, 7]`; the code emits `[8, 7]` because only `x_diff_2` is decremented
and the first half-run has already been emitted undecremented. -/
theorem claim_C4_counterexample :
    has_vertical_bias (edge_x_diff exLeft exRight) (edge_y_diff exLeft exRight) = false ∧
    corner_kinds (get_line_breakdown exLeft exRight) ≠ [] ∧
    Int.fdiv (edge_x_diff exLeft exRight) 2 -
      Int.fdiv (determine_relative_nodes exLeft exRight).1.width 2 = 8 ∧
    (edge_x_diff exLeft exRight - Int.fdiv (edge_x_diff exLeft exRight) 2) -
      Int.fdiv (determine_relative_nodes exLeft exRight).2.1.width 2 = 8 ∧
    run_lengths SegType.horizontal (get_line_breakdown exLeft exRight) = [8, 7] ∧
    run_lengths SegType.horizontal (get_line_breakdown exLeft exRight) ≠
      [8 - 1, 8 - 1] := by decide

/-- Claim C4 as amended: the two connectors are axis-swapped analogues
except in the corner adjustment.  When corner glyphs exist the vertical
connector emits half-runs of lengths `y1 - 1` and `y2 - 1` (both
decremented), while the horizontal connector emits `x1` and `x2 - 1`
(only the second decremented), where `x1, y1` are the floor-halves of the
axis distance shrunk by the first node's half-size and `x2, y2` the
remainders shrunk by the second node's half-size. -/
theorem claim_C4_amended (n1 n2 : Node) :
    (has_vertical_bias (edge_x_diff n1 n2) (edge_y_diff n1 n2) = false →
      corner_kinds (get_line_breakdown n1 n2) ≠ [] →
      run_lengths SegType.horizontal (get_line_breakdown n1 n2) =
        [Int.fdiv (edge_x_diff n1 n2) 2 -
            Int.fdiv (determine_relative_nodes n1 n2).1.width 2,
          ((edge_x_diff n1 n2 - Int.fdiv (edge_x_diff n1 n2) 2) -
            Int.fdiv (determine_relative_nodes n1 n2).2.1.width 2) - 1]) ∧
    (has_vertical_bias (edge_x_diff n1 n2) (edge_y_diff n1 n2) = true →
      corner_kinds (get_line_breakdown n1 n2) ≠ [] →
      run_lengths SegType.vertical (get_line_breakdown n1 n2) =
        [(Int.fdiv (edge_y_diff n1 n2) 2 -
            Int.fdiv (determine_relative_nodes n1 n2).2.2.1.height 2) - 1,
          ((edge_y_diff n1 n2 - Int.fdiv (edge_y_diff n1 n2) 2) -
            Int.fdiv (determine_relative_nodes n1 n2).2.2.2.height 2) - 1]) := by
  constructor
  · intro hb hk
    have hb' : has_vertical_bias
        |(determine_relative_nodes n1 n2).2.1.center_x -
          (determine_relative_nodes n1 n2).1.center_x|
        |(determine_relative_nodes n1 n2).2.2.2.center_y -
          (determine_relative_nodes n1 n2).2.2.1.center_y| = false := by
      simpa [edge_x_diff, edge_y_diff] using hb
    rcases lt_trichotomy (determine_relative_nodes n1 n2).1.center_y
        (determine_relative_nodes n1 n2).2.1.center_y with hc | hc | hc
    · simp [get_line_breakdown, hb', create_horizontal_connection,
        determine_horizontal_corner_types, run_lengths, edge_x_diff,
        hc, lt_asymm hc]
    · exfalso
      apply hk
      simp [get_line_breakdown, hb', create_horizontal_connection,
        determine_horizontal_corner_types, corner_kinds, hc]
    · simp [get_line_breakdown, hb', create_horizontal_connection,
        determine_horizontal_corner_types, run_lengths, edge_x_diff,
        hc, lt_asymm hc]
  · intro hb hk
    have hb' : has_vertical_bias
        |(determine_relative_nodes n1 n2).2.1.center_x -
          (determine_relative_nodes n1 n2).1.center_x|
        |(determine_relative_nodes n1 n2).2.2.2.center_y -
          (determine_relative_nodes n1 n2).2.2.1.center_y| = true := by
      simpa [edge_x_diff, edge_y_diff] using hb
    rcases lt_trichotomy (determine_relative_nodes n1 n2).2.2.1.center_x
        (determine_relative_nodes n1 n2).2.2.2.center_x with hc | hc | hc
    · simp [get_line_breakdown, hb', create_vertical_connection,
        determine_corner_types, run_lengths, edge_y_diff, hc, lt_asymm hc]
    · exfalso
      apply hk
      simp [get_line_breakdown, hb', create_vertical_connection,
        determine_corner_types, corner_kinds, hc]
    · simp [get_line_breakdown, hb', create_vertical_connection,
        determine_corner_types, run_lengths, edge_y_diff, hc, lt_asymm hc]

/-- Helper: a draw call without ink (a run of non-positive length) draws
no cells. -/
theorem cells_eq_nil_of_not_has_ink (c : DrawCall) (h : has_ink c = false) :
    c.cells = [] := by
  cases c with
  | vline y x n =>
    simp [has_ink] at h
    simp [DrawCall.cells, Int.toNat_of_nonpos h]
  | hline y x n =>
    simp [has_ink] at h
    simp [DrawCall.cells, Int.toNat_of_nonpos h]
  | addch y x k => simp [has_ink] at h

/-- Helper: inkless draw calls contribute nothing to the drawn cells. -/
theorem draw_calls_cells_filter_has_ink (calls : List DrawCall) :
    draw_calls_cells (calls.filter has_ink) = draw_calls_cells calls := by
  induction calls with
  | nil => rfl
  | cons c cs ih =>
    by_cases h : has_ink c = true
    · simp [draw_calls_cells, List.filter_cons, h] at ih ⊢
      exact ih
    · have h' : has_ink c = false := by simpa using h
      simp [draw_calls_cells, List.filter_cons, h',
        cells_eq_nil_of_not_has_ink c h'] at ih ⊢
      exact ih

/-- Claim C6, counterexample: rendering the straight vertical connection
between `exTop` and `exBottom` issues the crossbar's `hline` draw call
with length `0` to the window: a draw call with non-positive length does
reach the drawing surface. -/
theorem claim_C6_counterexample :
    DrawCall.hline 6 3 0 ∈ connect_nodes exTop exBottom ⟨0, 0⟩ ⟨24, 80⟩ ∧
    (0 : Int) ≤ 0 := by decide

/-- Claim C6 as amended: a run whose computed length is non-positive
draws nothing — its draw call is still issued to the drawing surface,
but such calls ink no cells, so dropping every inkless call leaves the
set of drawn cells unchanged. -/
theorem claim_C6_amended (n1 n2 : Node) (off : Offset) (w : Win) :
    draw_calls_cells ((connect_nodes n1 n2 off w).filter has_ink) =
      draw_calls_cells (connect_nodes n1 n2 off w) :=
  draw_calls_cells_filter_has_ink (connect_nodes n1 n2 off w)

/-- Claim C9: on every routing computation both nodes of the carrying
axis (top and bottom under vertical bias, left and right under
horizontal bias — in either case exactly the two endpoints) have
`reset_edges` applied, which clears all four side-connected flags and
changes nothing else; no flag is set afterward, and the segment
computation is unaffected by the cleared flags (routing modifies no node
state it depends on). -/
theorem claim_C9_reset_effect (n1 n2 : Node) :
    get_line_breakdown_states n1 n2 = (n1.reset_edges, n2.reset_edges) ∧
    (n1.reset_edges.id = n1.id ∧ n1.reset_edges.x = n1.x ∧
      n1.reset_edges.y = n1.y ∧ n1.reset_edges.width = n1.width ∧
      n1.reset_edges.height = n1.height) ∧
    (n2.reset_edges.id = n2.id ∧ n2.reset_edges.x = n2.x ∧
      n2.reset_edges.y = n2.y ∧ n2.reset_edges.width = n2.width ∧
      n2.reset_edges.height = n2.height) ∧
    (n1.reset_edges.top_edge = false ∧ n1.reset_edges.bottom_edge = false ∧
      n1.reset_edges.left_edge = false ∧ n1.reset_edges.right_edge = false) ∧
    (n2.reset_edges.top_edge = false ∧ n2.reset_edges.bottom_edge = false ∧
      n2.reset_edges.left_edge = false ∧ n2.reset_edges.right_edge = false) ∧
    get_line_breakdown n1.reset_edges n2.reset_edges = get_line_breakdown n1 n2 := by
  refine ⟨?_, by simp [Node.reset_edges], by simp [Node.reset_edges],
    by simp [Node.reset_edges], by simp [Node.reset_edges], ?_⟩
  · by_cases hy : n1.y < n2.y <;> by_cases hx : n1.x < n2.x <;>
      simp [get_line_breakdown_states, reset_component, hx, hy]
  · by_cases hx : n1.x < n2.x <;> by_cases hy : n1.y < n2.y <;>
      simp [get_line_breakdown, determine_relative_nodes, Node.reset_edges,
        Node.center_x, Node.center_y, hx, hy, create_vertical_connection,
        create_horizontal_connection, determine_corner_types,
        determine_horizontal_corner_types]

/-- Claim C4 amended, witness: the horizontal connection of the concrete
counterexample pair emits half-runs `[8, 8 - 1]`, and a concrete
vertically biased pair with corners emits `[4 - 1, 4 - 1]`. -/
theorem claim_C4_amended_witness :
    run_lengths SegType.horizontal (get_line_breakdown exLeft exRight) =
      [8, 8 - 1] ∧
    run_lengths SegType.vertical (get_line_breakdown exTopK exBottomK) =
      [4 - 1, 4 - 1] :=
  ⟨((claim_C4_amended exLeft exRight).1 (by decide) (by decide)).trans (by decide),
   ((claim_C4_amended exTopK exBottomK).2 (by decide) (by decide)).trans (by decide)⟩


theorem not_found_msg_ne (s m : String) (hm : m.data.head? = some 'I') :
    ("Node with id " ++ s ++ " not found.") ≠ m := by
  intro h
  have h2 := congrArg String.data h
  rw [String.data_append, String.data_append] at h2
  have h3 : ("Node with id ".data ++ s.data ++ " not found.".data).head? = some 'N' := by
    have hN : "Node with id ".data = 'N' :: "ode with id ".data := by decide
    simp [hN]
  rw [h2, hm] at h3
  simp at h3

theorem not_notfound_of_format (m : String) (hm : m.data.head? = some 'I') :
    ¬ is_not_found_error (.error (.valueError m)) := by
  rintro ⟨s, h⟩
  simp only [Except.error.injEq, PyErr.valueError.injEq] at h
  exact not_found_msg_ne s m hm h.symm

theorem not_format_of_notfound (s : String) :
    ¬ is_format_error (.error (.valueError ("Node with id " ++ s ++ " not found."))) := by
  simp only [is_format_error, Except.error.injEq, PyErr.valueError.injEq]
  push_neg
  exact ⟨not_found_msg_ne s _ (by decide), not_found_msg_ne s _ (by decide),
    not_found_msg_ne s _ (by decide), not_found_msg_ne s _ (by decide)⟩

/-- Claim C8: deserialization fails with a malformed-structure
(`Invalid data format.`) `ValueError` exactly when the `source`/`target`
structure is bad (the data is not a dict, the keys are absent, their
values are not dicts, or lack an `id`), fails with the distinct
dangling-reference (`Node with id ... not found.`) `ValueError` exactly
when the structure is fine but a referenced id matches no supplied node,
and returns a successfully bound edge (endpoints taken from the supplied
node list) exactly when structure, both lookups, and the top-level `id`
key are all in order; every failure is a raised error value, never a null
or partial edge.  The two error kinds are provably disjoint (their
messages differ), which the format direction of each iff depends on. -/
theorem claim_C8_error_classification (data : Json) (nodes : List Node) (fresh : String) :
    (is_format_error (from_json data nodes fresh) ↔ struct_ok data = false) ∧
    (is_not_found_error (from_json data nodes fresh) ↔
      (struct_ok data = true ∧
        (nodes.find? (fun n => (source_id_value data).eqString n.id) = none ∨
          nodes.find? (fun n => (target_id_value data).eqString n.id) = none))) ∧
    ((∃ e, from_json data nodes fresh = .ok e ∧
        e.source ∈ nodes ∧ e.target ∈ nodes) ↔
      (struct_ok data = true ∧
        (nodes.find? (fun n => (source_id_value data).eqString n.id)).isSome ∧
        (nodes.find? (fun n => (target_id_value data).eqString n.id)).isSome ∧
        (data.getKey? "id").isSome)) := by
  by_cases h1 : data.isObj = true
  case neg =>
    have h1' : data.isObj = false := by simpa using h1
    have hF : from_json data nodes fresh =
        .error (.valueError "Invalid data format. Expected a dictionary.") := by
      simp [from_json, h1']
    have hS : struct_ok data = false := by simp [struct_ok, h1']
    rw [hF, hS]
    refine ⟨by simp [is_format_error], ?_, by simp⟩
    constructor
    · intro h
      exact absurd h (not_notfound_of_format _ (by decide))
    · rintro ⟨h, -⟩
      simp at h
  case pos =>
  by_cases h2 : ((data.getKey? "source").isNone || (data.getKey? "target").isNone) = true
  case pos =>
    have hF : from_json data nodes fresh =
        .error (.valueError "Invalid data format. Expected 'source' and 'target' keys.") := by
      simp only [from_json, h1, h2]
      simp
    have hS : struct_ok data = false := by
      simp only [struct_ok]
      rcases Bool.or_eq_true_iff.mp h2 with h | h <;> simp [h]
    rw [hF, hS]
    refine ⟨by simp [is_format_error], ?_, by simp⟩
    constructor
    · intro h
      exact absurd h (not_notfound_of_format _ (by decide))
    · rintro ⟨h, -⟩
      simp at h
  case neg =>
  have hA : (data.getKey? "source").isNone = false := by
    cases hcase : (data.getKey? "source").isNone
    · rfl
    · exact absurd (by simp [hcase]) h2
  have hB : (data.getKey? "target").isNone = false := by
    cases hcase : (data.getKey? "target").isNone
    · rfl
    · exact absurd (by simp [hcase]) h2
  by_cases h3 : ((!((data.getKey? "source").getD .nul).isObj) ||
      (!((data.getKey? "target").getD .nul).isObj)) = true
  case pos =>
    have hF : from_json data nodes fresh =
        .error (.valueError
          "Invalid data format. Expected 'source' and 'target' to be dictionaries.") := by
      simp [from_json, h1, hA, hB, h3]
    have hX : ((data.getKey? "source").getD .nul).isObj = false ∨
        ((data.getKey? "target").getD .nul).isObj = false := by
      rcases Bool.or_eq_true_iff.mp h3 with h | h
      · exact Or.inl (by simpa using h)
      · exact Or.inr (by simpa using h)
    have hS : struct_ok data = false := by
      rcases hX with h | h <;> simp [struct_ok, h]
    rw [hF, hS]
    refine ⟨by simp [is_format_error], ?_, by simp⟩
    constructor
    · intro h
      exact absurd h (not_notfound_of_format _ (by decide))
    · rintro ⟨h, -⟩
      simp at h
  case neg =>
  have hC : ((data.getKey? "source").getD .nul).isObj = true := by
    cases hcase : ((data.getKey? "source").getD .nul).isObj
    · exact absurd (by simp [hcase]) h3
    · rfl
  have hD : ((data.getKey? "target").getD .nul).isObj = true := by
    cases hcase : ((data.getKey? "target").getD .nul).isObj
    · exact absurd (by simp [hcase]) h3
    · rfl
  by_cases h4 : ((((data.getKey? "source").getD .nul).getKey? "id").isNone ||
      (((data.getKey? "target").getD .nul).getKey? "id").isNone) = true
  case pos =>
    have hF : from_json data nodes fresh =
        .error (.valueError
          "Invalid data format. Expected 'id' key in 'source' and 'target'.") := by
      simp [from_json, h1, hA, hB, hC, hD, h4]
    have hS : struct_ok data = false := by
      simp only [struct_ok]
      rcases Bool.or_eq_true_iff.mp h4 with h | h <;> simp [h]
    rw [hF, hS]
    refine ⟨by simp [is_format_error], ?_, by simp⟩
    constructor
    · intro h
      exact absurd h (not_notfound_of_format _ (by decide))
    · rintro ⟨h, -⟩
      simp at h
  case neg =>
  have hE : (((data.getKey? "source").getD .nul).getKey? "id").isNone = false := by
    cases hcase : (((data.getKey? "source").getD .nul).getKey? "id").isNone
    · rfl
    · exact absurd (by simp [hcase]) h4
  have hG : (((data.getKey? "target").getD .nul).getKey? "id").isNone = false := by
    cases hcase : (((data.getKey? "target").getD .nul).getKey? "id").isNone
    · rfl
    · exact absurd (by simp [hcase]) h4
  have hS : struct_ok data = true := by
    simp [struct_ok, h1, hA, hB, hC, hD, hE, hG]
  have hFeq : from_json data nodes fresh =
      (match nodes.find? (fun n => (source_id_value data).eqString n.id) with
       | none => .error (.valueError
           ("Node with id " ++ (source_id_value data).pyStr ++ " not found."))
       | some source_node =>
         match nodes.find? (fun n => (target_id_value data).eqString n.id) with
         | none => .error (.valueError
             ("Node with id " ++ (target_id_value data).pyStr ++ " not found."))
         | some target_node =>
           match data.getKey? "id" with
           | none => .error (.keyError "id")
           | some idv => .ok (mkEdge source_node target_node idv.truthyIdString fresh)) := by
    simp [from_json, h1, hA, hB, hC, hD, hE, hG, source_id_value, target_id_value]
  rcases hfs : nodes.find? (fun n => (source_id_value data).eqString n.id) with _ | sn
  · rw [hFeq, hfs]
    refine ⟨?_, ?_, ?_⟩
    · simp only [hS]
      constructor
      · intro h
        exact absurd h (not_format_of_notfound _)
      · intro h
        simp at h
    · constructor
      · intro _
        exact ⟨hS, Or.inl rfl⟩
      · intro _
        exact ⟨_, rfl⟩
    · simp [hfs]
  · rcases hft : nodes.find? (fun n => (target_id_value data).eqString n.id) with _ | tn
    · rw [hFeq, hfs, hft]
      refine ⟨?_, ?_, ?_⟩
      · simp only [hS]
        constructor
        · intro h
          exact absurd h (not_format_of_notfound _)
        · intro h
          simp at h
      · constructor
        · intro _
          exact ⟨hS, Or.inr rfl⟩
        · intro _
          exact ⟨_, rfl⟩
      · simp [hfs, hft]
    · rcases hid : data.getKey? "id" with _ | idv
      · rw [hFeq, hfs, hft, hid]
        refine ⟨?_, ?_, ?_⟩
        · simp only [hS]
          constructor
          · intro h
            simp [is_format_error] at h
          · intro h
            simp at h
        · constructor
          · rintro ⟨s, h⟩
            simp at h
          · rintro ⟨-, h | h⟩
            · simp at h
            · simp at h
        · simp [hid]
      · rw [hFeq, hfs, hft, hid]
        refine ⟨?_, ?_, ?_⟩
        · simp only [hS]
          constructor
          · intro h
            simp [is_format_error] at h
          · intro h
            simp at h
        · constructor
          · rintro ⟨s, h⟩
            simp at h
          · rintro ⟨-, h | h⟩
            · simp at h
            · simp at h
        · constructor
          · intro _
            exact ⟨hS, by simp [hfs], by simp [hft], by simp [hid]⟩
          · intro _
            refine ⟨mkEdge sn tn idv.truthyIdString fresh, rfl, ?_, ?_⟩
            · exact List.mem_of_find?_eq_some hfs
            · exact List.mem_of_find?_eq_some hft

/-- Claim C7: for every edge (with its constructor-guaranteed nonempty id
and distinct endpoint ids, or a self-loop), deserializing its
serialization against the node list `[source, target]` succeeds and
yields an edge with the same id whose endpoints are the node objects from
the supplied list themselves, not detached copies of the JSON. -/
theorem claim_C7_round_trip (e : Edge) (fresh : String)
    (hid : e.id ≠ "")
    (hdis : e.source.id = e.target.id → e.source = e.target) :
    from_json e.to_json [e.source, e.target] fresh = .ok e := by
  obtain ⟨s, t, i⟩ := e
  simp only at hid hdis
  by_cases hst : s.id = t.id
  · have hst' := hdis hst
    subst hst'
    simp [from_json, Edge.to_json, Node.to_json, Json.getKey?, Json.isObj,
      Json.eqString, Json.truthyIdString, mkEdge, List.find?, List.lookup, hid]
  · have hba : (t.id == s.id) = false := beq_eq_false_iff_ne.mpr (Ne.symm hst)
    simp [from_json, Edge.to_json, Node.to_json, Json.getKey?, Json.isObj,
      Json.eqString, Json.truthyIdString, mkEdge, List.find?, List.lookup, hid,
      hst, hba]

/-- Claim C7 witness: a concrete edge round-trips to itself. -/
theorem claim_C7_round_trip_witness :
    from_json (Edge.to_json ⟨exTop, exBottom, "edge-1"⟩) [exTop, exBottom]
      "ba7816bf-8f01-4cfe-a414-140de5ae2223" =
      .ok ⟨exTop, exBottom, "edge-1"⟩ :=
  claim_C7_round_trip ⟨exTop, exBottom, "edge-1"⟩
    "ba7816bf-8f01-4cfe-a414-140de5ae2223" (by decide) (by decide)

/-- Claim C10: the constructor replaces a falsy `edge_id` (None or the
empty string) with the freshly generated uuid, so every constructed edge
has a nonempty id; consequently `from_json` of a serialization whose id
is the empty string does not preserve the id but installs the fresh
uuid. -/
theorem claim_C10_fresh_id (src tgt : Node) (eid : Option String) (fresh : String)
    (hf : fresh ≠ "") (hdis : src.id = tgt.id → src = tgt) :
    (mkEdge src tgt eid fresh).id ≠ "" ∧
    from_json (Edge.to_json ⟨src, tgt, ""⟩) [src, tgt] fresh =
      .ok ⟨src, tgt, fresh⟩ := by
  constructor
  · cases eid with
    | none => simpa [mkEdge] using hf
    | some s =>
      by_cases hs : s = ""
      · simpa [mkEdge, hs] using hf
      · simp [mkEdge, hs]
  · by_cases hst : src.id = tgt.id
    · have hst' := hdis hst
      subst hst'
      simp [from_json, Edge.to_json, Node.to_json, Json.getKey?, Json.isObj,
        Json.eqString, Json.truthyIdString, mkEdge, List.find?, List.lookup]
    · have hba : (tgt.id == src.id) = false := beq_eq_false_iff_ne.mpr (Ne.symm hst)
      simp [from_json, Edge.to_json, Node.to_json, Json.getKey?, Json.isObj,
        Json.eqString, Json.truthyIdString, mkEdge, List.find?, List.lookup,
        hst, hba]

/-- Claim C10 witness: a concrete empty-string id is replaced by the
fresh uuid both in the constructor and through deserialization. -/
theorem claim_C10_fresh_id_witness :
    (mkEdge exTop exBottom (some "") "0a137b37-5b46-4cb5-a358-9f01bed2e3 escape").id ≠ "" ∧
    from_json (Edge.to_json ⟨exTop, exBottom, ""⟩) [exTop, exBottom]
      "0a137b37-5b46-4cb5-a358-9f01bed2e3 escape" =
      .ok ⟨exTop, exBottom, "0a137b37-5b46-4cb5-a358-9f01bed2e3 escape"⟩ :=
  claim_C10_fresh_id exTop exBottom (some "")
    "0a137b37-5b46-4cb5-a358-9f01bed2e3 escape" (by decide) (by decide)

/-- Helper: Python floor division by two agrees with Lean's Euclidean
division by two (the divisor is positive). -/
theorem fdiv_two_eq (a : Int) : Int.fdiv a 2 = a / 2 := by
  rw [Int.fdiv_eq_ediv]
  decide

/-- Helper: arithmetic characterization of a path step. -/
theorem adjb_iff (c d : Cell) : adjb c d = true ↔
    ((c.x = d.x ∧ (c.y - d.y = 1 ∨ d.y - c.y = 1 ∨ c.y = d.y)) ∨
      (c.y = d.y ∧ (c.x - d.x = 1 ∨ d.x - c.x = 1))) := by
  simp [adjb]
  tauto

/-- Helper: path steps are symmetric. -/
theorem adjb_symm {c d : Cell} (h : adjb c d = true) : adjb d c = true := by
  rw [adjb_iff] at h ⊢
  omega

/-- Helper: the cells of any single segment form a chain of path steps. -/
theorem chain'_cells (s : LineSegment) :
    List.Chain' (fun c d => adjb c d = true) s.cells := by
  rcases s with ⟨ty, x, y, len⟩
  cases ty with
  | horizontal =>
    simp only [LineSegment.cells]
    rw [List.chain'_map]
    cases hn : len.toNat with
    | zero => simp
    | succ m =>
      rw [List.chain'_range_succ]
      intro i hi
      rw [adjb_iff]
      right
      constructor
      · rfl
      · right
        push_cast
        omega
  | vertical =>
    simp only [LineSegment.cells]
    rw [List.chain'_map]
    cases hn : len.toNat with
    | zero => simp
    | succ m =>
      rw [List.chain'_range_succ]
      intro i hi
      rw [adjb_iff]
      left
      refine ⟨rfl, ?_⟩
      right
      left
      push_cast
      omega
  | corner k => simp [LineSegment.cells]

/-- Helper: first cell of a horizontal run of positive length. -/
theorem hrun_head (x y len : Int) (h : 1 ≤ len) :
    (LineSegment.mk .horizontal x y len).cells.head? = some ⟨x, y⟩ := by
  obtain ⟨m, hm⟩ : ∃ m, len.toNat = m + 1 := ⟨(len - 1).toNat, by omega⟩
  simp only [LineSegment.cells]
  rw [hm, List.range_succ_eq_map]
  simp

/-- Helper: last cell of a horizontal run of positive length. -/
theorem hrun_last (x y len : Int) (h : 1 ≤ len) :
    (LineSegment.mk .horizontal x y len).cells.getLast? =
      some ⟨x + (len - 1), y⟩ := by
  obtain ⟨m, hm⟩ : ∃ m, len.toNat = m + 1 := ⟨(len - 1).toNat, by omega⟩
  simp only [LineSegment.cells]
  rw [hm, List.range_succ, List.map_append]
  simp only [List.map_cons, List.map_nil]
  rw [List.getLast?_concat]
  have : (m : Int) = len - 1 := by omega
  simp [this]

/-- Helper: first cell of a vertical run of positive length. -/
theorem vrun_head (x y len : Int) (h : 1 ≤ len) :
    (LineSegment.mk .vertical x y len).cells.head? = some ⟨x, y⟩ := by
  obtain ⟨m, hm⟩ : ∃ m, len.toNat = m + 1 := ⟨(len - 1).toNat, by omega⟩
  simp only [LineSegment.cells]
  rw [hm, List.range_succ_eq_map]
  simp

/-- Helper: last cell of a vertical run of positive length. -/
theorem vrun_last (x y len : Int) (h : 1 ≤ len) :
    (LineSegment.mk .vertical x y len).cells.getLast? =
      some ⟨x, y + (len - 1)⟩ := by
  obtain ⟨m, hm⟩ : ∃ m, len.toNat = m + 1 := ⟨(len - 1).toNat, by omega⟩
  simp only [LineSegment.cells]
  rw [hm, List.range_succ, List.map_append]
  simp only [List.map_cons, List.map_nil]
  rw [List.getLast?_concat]
  have : (m : Int) = len - 1 := by omega
  simp [this]

/-- Helper: head of an append through a nonempty first part. -/
theorem head?_append_some {A B : List Cell} {c : Cell} (h : A.head? = some c) :
    (A ++ B).head? = some c := by
  cases A with
  | nil => simp at h
  | cons a t => simpa using h

/-- Helper: last of an append through a nonempty second part. -/
theorem getLast?_append_some {A B : List Cell} {c : Cell}
    (h : B.getLast? = some c) : (A ++ B).getLast? = some c := by
  rw [List.getLast?_append_of_ne_nil]
  · exact h
  · intro hB
    rw [hB] at h
    simp at h

/-- Helper: chains concatenate across one linking step. -/
theorem chain'_append_link {l1 l2 : List Cell}
    (h1 : List.Chain' (fun c d => adjb c d = true) l1)
    (h2 : List.Chain' (fun c d => adjb c d = true) l2)
    (hlink : ∀ a ∈ l1.getLast?, ∀ b ∈ l2.head?, adjb a b = true) :
    List.Chain' (fun c d => adjb c d = true) (l1 ++ l2) :=
  List.chain'_append.mpr ⟨h1, h2, hlink⟩

/-- Helper: every cell of a member segment is a drawn cell of the list. -/
theorem cells_subset {segs : List LineSegment} {s : LineSegment} (hs : s ∈ segs) :
    ∀ c ∈ s.cells, c ∈ segments_cells segs := fun _ hc =>
  List.mem_flatMap.mpr ⟨s, hs, hc⟩

/-- Helper: pointwise membership distributes over an append of path
pieces. -/
theorem mem_append_subset {cells : List Cell} {A B : List Cell}
    (hA : ∀ c ∈ A, c ∈ cells) (hB : ∀ c ∈ B, c ∈ cells) :
    ∀ c ∈ A ++ B, c ∈ cells := by
  intro c hc
  rcases List.mem_append.mp hc with h | h
  · exact hA c h
  · exact hB c h

/-- Helper: a connecting path can be walked in either direction. -/
theorem connects_bodies_symm {cells : List Cell} {a b : Node}
    (h : connects_bodies cells a b) : connects_bodies cells b a := by
  obtain ⟨p, hne, hsub, hchain, ⟨c0, hc0, ht0⟩, ⟨cl, hcl, htl⟩⟩ := h
  refine ⟨p.reverse, by simpa using hne,
    fun c hc => hsub c (List.mem_reverse.mp hc), ?_, ?_, ?_⟩
  · rw [List.chain'_reverse]
    exact hchain.imp (fun a b hab => adjb_symm hab)
  · exact ⟨cl, by rw [List.head?_reverse]; exact hcl, htl⟩
  · exact ⟨c0, by rw [List.getLast?_reverse]; exact hc0, ht0⟩

/-- Claim C5, counterexample.  First, a vertically biased connection with
corners returns three straight-run segments (two verticals of drawn
length 3 and one horizontal crossbar of drawn length 3) plus two corner
glyphs, contradicting "at most two straight-run segments" even when only
drawing segments are counted.  Second, two coincident nodes produce a
segment list that draws no cells at all, so the drawn segments form no
path between the node boundaries, contradicting the unconditional
continuity claim. -/
theorem claim_C5_counterexample :
    run_count (get_line_breakdown exTopK exBottomK) = 3 ∧
    ¬ run_count (get_line_breakdown exTopK exBottomK) ≤ 2 ∧
    run_lengths SegType.vertical (get_line_breakdown exTopK exBottomK) = [3, 3] ∧
    run_lengths SegType.horizontal (get_line_breakdown exTopK exBottomK) = [3] ∧
    corner_count (get_line_breakdown exTopK exBottomK) = 2 ∧
    segments_cells (get_line_breakdown exGhostA exGhostB) = [] ∧
    ¬ connects_bodies (segments_cells (get_line_breakdown exGhostA exGhostB))
        exGhostA exGhostB := by
  refine ⟨by decide, by decide, by decide, by decide, by decide, by decide, ?_⟩
  rintro ⟨p, hne, hsub, -, -, -⟩
  cases p with
  | nil => exact hne rfl
  | cons c t =>
    have hc := hsub c (List.mem_cons_self c t)
    have hcells : segments_cells (get_line_breakdown exGhostA exGhostB) = [] := by
      decide
    rw [hcells] at hc
    simp at hc

/-- Helper: the cells of a segment, walked backward, still chain. -/
theorem chain'_cells_reverse (s : LineSegment) :
    List.Chain' (fun c d => adjb c d = true) s.cells.reverse := by
  rw [List.chain'_reverse]
  exact (chain'_cells s).imp (fun a b hab => adjb_symm hab)

/-- Helper: glue two path pieces into a connecting path. -/
theorem connects_of_two (cells : List Cell) (t b : Node)
    (P1 P2 : List Cell) (c1 d1 c2 d2 : Cell)
    (hH1 : P1.head? = some c1) (hL1 : P1.getLast? = some d1)
    (hH2 : P2.head? = some c2) (hL2 : P2.getLast? = some d2)
    (hch1 : List.Chain' (fun c d => adjb c d = true) P1)
    (hch2 : List.Chain' (fun c d => adjb c d = true) P2)
    (l12 : adjb d1 c2 = true)
    (hsub : ∀ c ∈ P1 ++ P2, c ∈ cells)
    (htt : touches_body t c1) (htb : touches_body b d2) :
    connects_bodies cells t b := by
  refine ⟨P1 ++ P2, ?_, hsub, ?_, ?_, ?_⟩
  · have hh := head?_append_some (B := P2) hH1
    intro h
    rw [h] at hh
    simp at hh
  · refine chain'_append_link hch1 hch2 ?_
    intro a ha e he
    rw [hL1] at ha
    rw [hH2] at he
    simp only [Option.mem_def, Option.some.injEq] at ha he
    subst ha
    subst he
    exact l12
  · exact ⟨c1, head?_append_some hH1, htt⟩
  · exact ⟨d2, getLast?_append_some hL2, htb⟩

/-- Helper: glue five path pieces (half-run, corner, crossbar, corner,
half-run) into a connecting path. -/
theorem connects_of_five (cells : List Cell) (t b : Node)
    (P1 P2 P3 P4 P5 : List Cell)
    (c1 d1 c2 d2 c3 d3 c4 d4 c5 d5 : Cell)
    (hH1 : P1.head? = some c1) (hL1 : P1.getLast? = some d1)
    (hH2 : P2.head? = some c2) (hL2 : P2.getLast? = some d2)
    (hH3 : P3.head? = some c3) (hL3 : P3.getLast? = some d3)
    (hH4 : P4.head? = some c4) (hL4 : P4.getLast? = some d4)
    (hH5 : P5.head? = some c5) (hL5 : P5.getLast? = some d5)
    (hch1 : List.Chain' (fun c d => adjb c d = true) P1)
    (hch2 : List.Chain' (fun c d => adjb c d = true) P2)
    (hch3 : List.Chain' (fun c d => adjb c d = true) P3)
    (hch4 : List.Chain' (fun c d => adjb c d = true) P4)
    (hch5 : List.Chain' (fun c d => adjb c d = true) P5)
    (l12 : adjb d1 c2 = true) (l23 : adjb d2 c3 = true)
    (l34 : adjb d3 c4 = true) (l45 : adjb d4 c5 = true)
    (hsub : ∀ c ∈ P1 ++ (P2 ++ (P3 ++ (P4 ++ P5))), c ∈ cells)
    (htt : touches_body t c1) (htb : touches_body b d5) :
    connects_bodies cells t b := by
  refine ⟨P1 ++ (P2 ++ (P3 ++ (P4 ++ P5))), ?_, hsub, ?_, ?_, ?_⟩
  · have hh := head?_append_some (B := P2 ++ (P3 ++ (P4 ++ P5))) hH1
    intro h
    rw [h] at hh
    simp at hh
  · refine chain'_append_link hch1 ?_ ?_
    · refine chain'_append_link hch2 ?_ ?_
      · refine chain'_append_link hch3 ?_ ?_
        · refine chain'_append_link hch4 hch5 ?_
          intro a ha e he
          rw [hL4] at ha
          rw [hH5] at he
          simp only [Option.mem_def, Option.some.injEq] at ha he
          subst ha
          subst he
          exact l45
        · intro a ha e he
          rw [hL3] at ha
          rw [head?_append_some hH4] at he
          simp only [Option.mem_def, Option.some.injEq] at ha he
          subst ha
          subst he
          exact l34
      · intro a ha e he
        rw [hL2] at ha
        rw [head?_append_some hH3] at he
        simp only [Option.mem_def, Option.some.injEq] at ha he
        subst ha
        subst he
        exact l23
    · intro a ha e he
      rw [hL1] at ha
      rw [head?_append_some hH2] at he
      simp only [Option.mem_def, Option.some.injEq] at ha he
      subst ha
      subst he
      exact l12
  · exact ⟨c1, head?_append_some hH1, htt⟩
  · exact ⟨d5, getLast?_append_some (getLast?_append_some
      (getLast?_append_some (getLast?_append_some hL5))), htb⟩

/-- Helper: the single cell of a corner glyph segment, as head. -/
theorem corner_head (k : CornerKind) (x y len : Int) :
    (LineSegment.mk (.corner k) x y len).cells.head? = some ⟨x, y⟩ := by
  simp [LineSegment.cells]

/-- Helper: the single cell of a corner glyph segment, as last. -/
theorem corner_last (k : CornerKind) (x y len : Int) :
    (LineSegment.mk (.corner k) x y len).cells.getLast? = some ⟨x, y⟩ := by
  simp [LineSegment.cells]

/-- Helper: the vertically biased connection, fed the relative nodes and
distances `get_line_breakdown` computes, links the top node's body to the
bottom node's body whenever both emitted vertical half-runs have positive
length. -/
theorem vertical_connects
    (l r t b : Node)
    (hset : (l = t ∧ r = b) ∨ (l = b ∧ r = t))
    (hty : t.y ≤ b.y)
    (hht : 1 ≤ t.height) (hhb : 1 ≤ b.height)
    (hwt : 1 ≤ t.width) (hwb : 1 ≤ b.width)
    (hpos : ∀ s ∈ create_vertical_connection l r t b
        |r.center_x - l.center_x| |b.center_y - t.center_y|,
        s.type = SegType.vertical → 1 ≤ s.length) :
    connects_bodies
      (segments_cells (create_vertical_connection l r t b
        |r.center_x - l.center_x| |b.center_y - t.center_y|)) t b := by
  have eT : Int.fdiv t.height 2 = t.height / 2 := fdiv_two_eq _
  have eB : Int.fdiv b.height 2 = b.height / 2 := fdiv_two_eq _
  have eWT : Int.fdiv t.width 2 = t.width / 2 := fdiv_two_eq _
  have eWB : Int.fdiv b.width 2 = b.width / 2 := fdiv_two_eq _
  have eY : Int.fdiv |b.center_y - t.center_y| 2 = |b.center_y - t.center_y| / 2 :=
    fdiv_two_eq _
  have hcyt : t.center_y = t.y + t.height / 2 := by
    simp [Node.center_y, fdiv_two_eq]
  have hcyb : b.center_y = b.y + b.height / 2 := by
    simp [Node.center_y, fdiv_two_eq]
  have habs0 : 0 ≤ |b.center_y - t.center_y| := abs_nonneg _
  rcases lt_trichotomy t.center_x b.center_x with hcx | hcx | hcx
  · -- top node strictly left of bottom node: corners (llcorner, urcorner)
    have hcor : determine_corner_types t b =
        (some CornerKind.llcorner, some CornerKind.urcorner) := by
      simp [determine_corner_types, hcx, lt_asymm hcx]
    have hxdv : |r.center_x - l.center_x| = b.center_x - t.center_x := by
      rcases hset with ⟨h1, h2⟩ | ⟨h1, h2⟩ <;> subst h1 <;> subst h2
      · exact abs_of_nonneg (by omega)
      · rw [abs_sub_comm]
        exact abs_of_nonneg (by omega)
    have hhx : (if l.center_x < r.center_x then l.center_x else r.center_x + 1) =
          t.center_x ∨
        (if l.center_x < r.center_x then l.center_x else r.center_x + 1) =
          t.center_x + 1 := by
      rcases hset with ⟨h1, h2⟩ | ⟨h1, h2⟩ <;> subst h1 <;> subst h2
      · left
        exact if_pos hcx
      · right
        rw [if_neg (lt_asymm hcx)]
    have hm3 : (⟨.vertical, t.center_x, t.center_y + Int.fdiv t.height 2 + 1,
        Int.fdiv |b.center_y - t.center_y| 2 - Int.fdiv t.height 2 - 1⟩ :
          LineSegment) ∈ create_vertical_connection l r t b
        |r.center_x - l.center_x| |b.center_y - t.center_y| := by
      simp [create_vertical_connection, hcor]
    have hm4 : (⟨.vertical, b.center_x,
        b.center_y - (|b.center_y - t.center_y| -
          Int.fdiv |b.center_y - t.center_y| 2 - Int.fdiv b.height 2 - 1) -
          Int.fdiv b.height 2,
        |b.center_y - t.center_y| - Int.fdiv |b.center_y - t.center_y| 2 -
          Int.fdiv b.height 2 - 1⟩ : LineSegment) ∈
        create_vertical_connection l r t b
        |r.center_x - l.center_x| |b.center_y - t.center_y| := by
      simp [create_vertical_connection, hcor]
    have hL1 : 1 ≤ Int.fdiv |b.center_y - t.center_y| 2 - Int.fdiv t.height 2 - 1 :=
      hpos _ hm3 rfl
    have hL2 : 1 ≤ |b.center_y - t.center_y| - Int.fdiv |b.center_y - t.center_y| 2 -
        Int.fdiv b.height 2 - 1 := hpos _ hm4 rfl
    have hbc : t.center_y ≤ b.center_y := by
      by_contra hlt
      push_neg at hlt
      have h1 : |b.center_y - t.center_y| = t.center_y - b.center_y := by
        rw [abs_sub_comm]
        exact abs_of_nonneg (by omega)
      omega
    have habs : |b.center_y - t.center_y| = b.center_y - t.center_y :=
      abs_of_nonneg (by omega)
    have hm0 : (⟨.horizontal,
        (if l.center_x < r.center_x then l.center_x else r.center_x + 1),
        b.center_y - (|b.center_y - t.center_y| -
          Int.fdiv |b.center_y - t.center_y| 2 - Int.fdiv b.height 2) -
          Int.fdiv b.height 2,
        |r.center_x - l.center_x|⟩ : LineSegment) ∈
        create_vertical_connection l r t b
        |r.center_x - l.center_x| |b.center_y - t.center_y| := by
      simp [create_vertical_connection, hcor]
    have hm1 : (⟨.corner CornerKind.llcorner, t.center_x,
        t.center_y + Int.fdiv t.height 2 +
          (Int.fdiv |b.center_y - t.center_y| 2 - Int.fdiv t.height 2), 0⟩ :
          LineSegment) ∈ create_vertical_connection l r t b
        |r.center_x - l.center_x| |b.center_y - t.center_y| := by
      simp [create_vertical_connection, hcor]
    have hm2 : (⟨.corner CornerKind.urcorner, b.center_x,
        b.center_y - (|b.center_y - t.center_y| -
          Int.fdiv |b.center_y - t.center_y| 2 - Int.fdiv b.height 2 - 1) -
          Int.fdiv b.height 2 - 1, 0⟩ : LineSegment) ∈
        create_vertical_connection l r t b
        |r.center_x - l.center_x| |b.center_y - t.center_y| := by
      simp [create_vertical_connection, hcor]
    have hXD : 1 ≤ |r.center_x - l.center_x| := by omega
    refine connects_of_five _ t b
      (LineSegment.cells ⟨.vertical, t.center_x, t.center_y + Int.fdiv t.height 2 + 1,
        Int.fdiv |b.center_y - t.center_y| 2 - Int.fdiv t.height 2 - 1⟩)
      (LineSegment.cells ⟨.corner CornerKind.llcorner, t.center_x,
        t.center_y + Int.fdiv t.height 2 +
          (Int.fdiv |b.center_y - t.center_y| 2 - Int.fdiv t.height 2), 0⟩)
      (LineSegment.cells ⟨.horizontal,
        (if l.center_x < r.center_x then l.center_x else r.center_x + 1),
        b.center_y - (|b.center_y - t.center_y| -
          Int.fdiv |b.center_y - t.center_y| 2 - Int.fdiv b.height 2) -
          Int.fdiv b.height 2,
        |r.center_x - l.center_x|⟩)
      (LineSegment.cells ⟨.corner CornerKind.urcorner, b.center_x,
        b.center_y - (|b.center_y - t.center_y| -
          Int.fdiv |b.center_y - t.center_y| 2 - Int.fdiv b.height 2 - 1) -
          Int.fdiv b.height 2 - 1, 0⟩)
      (LineSegment.cells ⟨.vertical, b.center_x,
        b.center_y - (|b.center_y - t.center_y| -
          Int.fdiv |b.center_y - t.center_y| 2 - Int.fdiv b.height 2 - 1) -
          Int.fdiv b.height 2,
        |b.center_y - t.center_y| - Int.fdiv |b.center_y - t.center_y| 2 -
          Int.fdiv b.height 2 - 1⟩)
      _ _ _ _ _ _ _ _ _ _
      (vrun_head _ _ _ hL1) (vrun_last _ _ _ hL1)
      (corner_head _ _ _ _) (corner_last _ _ _ _)
      (hrun_head _ _ _ hXD) (hrun_last _ _ _ hXD)
      (corner_head _ _ _ _) (corner_last _ _ _ _)
      (vrun_head _ _ _ hL2) (vrun_last _ _ _ hL2)
      (chain'_cells _) (chain'_cells _) (chain'_cells _) (chain'_cells _)
      (chain'_cells _)
      ?_ ?_ ?_ ?_ ?_ ?_ ?_
    · rw [adjb_iff]
      dsimp only
      omega
    · rw [adjb_iff]
      dsimp only
      omega
    · rw [adjb_iff]
      dsimp only
      omega
    · rw [adjb_iff]
      dsimp only
      omega
    · refine mem_append_subset (cells_subset hm3) (mem_append_subset
        (cells_subset hm1) (mem_append_subset (cells_subset hm0)
          (mem_append_subset (cells_subset hm2) (cells_subset hm4))))
    · refine Or.inr ⟨⟨t.center_x, t.center_y + Int.fdiv t.height 2⟩, ?_, ?_⟩
      · simp [in_body]
        omega
      · rw [adjb_iff]
        dsimp only
        omega
    · refine Or.inr ⟨⟨b.center_x, b.center_y - Int.fdiv b.height 2⟩, ?_, ?_⟩
      · simp [in_body]
        omega
      · rw [adjb_iff]
        dsimp only
        omega
  · -- equal centers: no corners, straight two-run path
    have hcor : determine_corner_types t b = (none, none) := by
      simp [determine_corner_types, hcx]
    have hm1 : (⟨.vertical, t.center_x, t.center_y + Int.fdiv t.height 2 + 1,
        Int.fdiv |b.center_y - t.center_y| 2 - Int.fdiv t.height 2⟩ :
          LineSegment) ∈ create_vertical_connection l r t b
        |r.center_x - l.center_x| |b.center_y - t.center_y| := by
      simp [create_vertical_connection, hcor]
    have hm2 : (⟨.vertical, b.center_x,
        b.center_y - (|b.center_y - t.center_y| -
          Int.fdiv |b.center_y - t.center_y| 2 - Int.fdiv b.height 2) -
          Int.fdiv b.height 2,
        |b.center_y - t.center_y| - Int.fdiv |b.center_y - t.center_y| 2 -
          Int.fdiv b.height 2⟩ : LineSegment) ∈
        create_vertical_connection l r t b
        |r.center_x - l.center_x| |b.center_y - t.center_y| := by
      simp [create_vertical_connection, hcor]
    have hL1 : 1 ≤ Int.fdiv |b.center_y - t.center_y| 2 - Int.fdiv t.height 2 :=
      hpos _ hm1 rfl
    have hL2 : 1 ≤ |b.center_y - t.center_y| - Int.fdiv |b.center_y - t.center_y| 2 -
        Int.fdiv b.height 2 := hpos _ hm2 rfl
    have hbc : t.center_y ≤ b.center_y := by
      by_contra hlt
      push_neg at hlt
      have h1 : |b.center_y - t.center_y| = t.center_y - b.center_y := by
        rw [abs_sub_comm]
        exact abs_of_nonneg (by omega)
      omega
    have habs : |b.center_y - t.center_y| = b.center_y - t.center_y :=
      abs_of_nonneg (by omega)
    refine connects_of_two _ t b
      (LineSegment.cells ⟨.vertical, t.center_x, t.center_y + Int.fdiv t.height 2 + 1,
        Int.fdiv |b.center_y - t.center_y| 2 - Int.fdiv t.height 2⟩)
      (LineSegment.cells ⟨.vertical, b.center_x,
        b.center_y - (|b.center_y - t.center_y| -
          Int.fdiv |b.center_y - t.center_y| 2 - Int.fdiv b.height 2) -
          Int.fdiv b.height 2,
        |b.center_y - t.center_y| - Int.fdiv |b.center_y - t.center_y| 2 -
          Int.fdiv b.height 2⟩)
      _ _ _ _
      (vrun_head _ _ _ hL1) (vrun_last _ _ _ hL1)
      (vrun_head _ _ _ hL2) (vrun_last _ _ _ hL2)
      (chain'_cells _) (chain'_cells _)
      ?_ ?_ ?_ ?_
    · rw [adjb_iff]
      dsimp only
      omega
    · exact mem_append_subset (cells_subset hm1) (cells_subset hm2)
    · refine Or.inr ⟨⟨t.center_x, t.center_y + Int.fdiv t.height 2⟩, ?_, ?_⟩
      · simp [in_body]
        omega
      · rw [adjb_iff]
        dsimp only
        omega
    · refine Or.inr ⟨⟨b.center_x, b.center_y - Int.fdiv b.height 2⟩, ?_, ?_⟩
      · simp [in_body]
        omega
      · rw [adjb_iff]
        dsimp only
        omega
  · -- top node strictly right of bottom node: corners (lrcorner, ulcorner)
    have hcor : determine_corner_types t b =
        (some CornerKind.lrcorner, some CornerKind.ulcorner) := by
      simp [determine_corner_types, hcx]
    have hxdv : |r.center_x - l.center_x| = t.center_x - b.center_x := by
      rcases hset with ⟨h1, h2⟩ | ⟨h1, h2⟩ <;> subst h1 <;> subst h2
      · rw [abs_sub_comm]
        exact abs_of_nonneg (by omega)
      · exact abs_of_nonneg (by omega)
    have hhx : (if l.center_x < r.center_x then l.center_x else r.center_x + 1) =
          b.center_x + 1 ∨
        (if l.center_x < r.center_x then l.center_x else r.center_x + 1) =
          b.center_x := by
      rcases hset with ⟨h1, h2⟩ | ⟨h1, h2⟩ <;> subst h1 <;> subst h2
      · left
        rw [if_neg (lt_asymm hcx)]
      · right
        exact if_pos hcx
    have hm3 : (⟨.vertical, t.center_x, t.center_y + Int.fdiv t.height 2 + 1,
        Int.fdiv |b.center_y - t.center_y| 2 - Int.fdiv t.height 2 - 1⟩ :
          LineSegment) ∈ create_vertical_connection l r t b
        |r.center_x - l.center_x| |b.center_y - t.center_y| := by
      simp [create_vertical_connection, hcor]
    have hm4 : (⟨.vertical, b.center_x,
        b.center_y - (|b.center_y - t.center_y| -
          Int.fdiv |b.center_y - t.center_y| 2 - Int.fdiv b.height 2 - 1) -
          Int.fdiv b.height 2,
        |b.center_y - t.center_y| - Int.fdiv |b.center_y - t.center_y| 2 -
          Int.fdiv b.height 2 - 1⟩ : LineSegment) ∈
        create_vertical_connection l r t b
        |r.center_x - l.center_x| |b.center_y - t.center_y| := by
      simp [create_vertical_connection, hcor]
    have hL1 : 1 ≤ Int.fdiv |b.center_y - t.center_y| 2 - Int.fdiv t.height 2 - 1 :=
      hpos _ hm3 rfl
    have hL2 : 1 ≤ |b.center_y - t.center_y| - Int.fdiv |b.center_y - t.center_y| 2 -
        Int.fdiv b.height 2 - 1 := hpos _ hm4 rfl
    have hbc : t.center_y ≤ b.center_y := by
      by_contra hlt
      push_neg at hlt
      have h1 : |b.center_y - t.center_y| = t.center_y - b.center_y := by
        rw [abs_sub_comm]
        exact abs_of_nonneg (by omega)
      omega
    have habs : |b.center_y - t.center_y| = b.center_y - t.center_y :=
      abs_of_nonneg (by omega)
    have hm0 : (⟨.horizontal,
        (if l.center_x < r.center_x then l.center_x else r.center_x + 1),
        b.center_y - (|b.center_y - t.center_y| -
          Int.fdiv |b.center_y - t.center_y| 2 - Int.fdiv b.height 2) -
          Int.fdiv b.height 2,
        |r.center_x - l.center_x|⟩ : LineSegment) ∈
        create_vertical_connection l r t b
        |r.center_x - l.center_x| |b.center_y - t.center_y| := by
      simp [create_vertical_connection, hcor]
    have hm1 : (⟨.corner CornerKind.lrcorner, t.center_x,
        t.center_y + Int.fdiv t.height 2 +
          (Int.fdiv |b.center_y - t.center_y| 2 - Int.fdiv t.height 2), 0⟩ :
          LineSegment) ∈ create_vertical_connection l r t b
        |r.center_x - l.center_x| |b.center_y - t.center_y| := by
      simp [create_vertical_connection, hcor]
    have hm2 : (⟨.corner CornerKind.ulcorner, b.center_x,
        b.center_y - (|b.center_y - t.center_y| -
          Int.fdiv |b.center_y - t.center_y| 2 - Int.fdiv b.height 2 - 1) -
          Int.fdiv b.height 2 - 1, 0⟩ : LineSegment) ∈
        create_vertical_connection l r t b
        |r.center_x - l.center_x| |b.center_y - t.center_y| := by
      simp [create_vertical_connection, hcor]
    have hXD : 1 ≤ |r.center_x - l.center_x| := by omega
    refine connects_of_five _ t b
      (LineSegment.cells ⟨.vertical, t.center_x, t.center_y + Int.fdiv t.height 2 + 1,
        Int.fdiv |b.center_y - t.center_y| 2 - Int.fdiv t.height 2 - 1⟩)
      (LineSegment.cells ⟨.corner CornerKind.lrcorner, t.center_x,
        t.center_y + Int.fdiv t.height 2 +
          (Int.fdiv |b.center_y - t.center_y| 2 - Int.fdiv t.height 2), 0⟩)
      (LineSegment.cells ⟨.horizontal,
        (if l.center_x < r.center_x then l.center_x else r.center_x + 1),
        b.center_y - (|b.center_y - t.center_y| -
          Int.fdiv |b.center_y - t.center_y| 2 - Int.fdiv b.height 2) -
          Int.fdiv b.height 2,
        |r.center_x - l.center_x|⟩).reverse
      (LineSegment.cells ⟨.corner CornerKind.ulcorner, b.center_x,
        b.center_y - (|b.center_y - t.center_y| -
          Int.fdiv |b.center_y - t.center_y| 2 - Int.fdiv b.height 2 - 1) -
          Int.fdiv b.height 2 - 1, 0⟩)
      (LineSegment.cells ⟨.vertical, b.center_x,
        b.center_y - (|b.center_y - t.center_y| -
          Int.fdiv |b.center_y - t.center_y| 2 - Int.fdiv b.height 2 - 1) -
          Int.fdiv b.height 2,
        |b.center_y - t.center_y| - Int.fdiv |b.center_y - t.center_y| 2 -
          Int.fdiv b.height 2 - 1⟩)
      _ _ _ _ _ _ _ _ _ _
      (vrun_head _ _ _ hL1) (vrun_last _ _ _ hL1)
      (corner_head _ _ _ _) (corner_last _ _ _ _)
      (by rw [List.head?_reverse]; exact hrun_last _ _ _ hXD)
      (by rw [List.getLast?_reverse]; exact hrun_head _ _ _ hXD)
      (corner_head _ _ _ _) (corner_last _ _ _ _)
      (vrun_head _ _ _ hL2) (vrun_last _ _ _ hL2)
      (chain'_cells _) (chain'_cells _) (chain'_cells_reverse _) (chain'_cells _)
      (chain'_cells _)
      ?_ ?_ ?_ ?_ ?_ ?_ ?_
    · rw [adjb_iff]
      dsimp only
      omega
    · rw [adjb_iff]
      dsimp only
      omega
    · rw [adjb_iff]
      dsimp only
      omega
    · rw [adjb_iff]
      dsimp only
      omega
    · refine mem_append_subset (cells_subset hm3) (mem_append_subset
        (cells_subset hm1) (mem_append_subset
          (fun c hc => cells_subset hm0 c (List.mem_reverse.mp hc))
          (mem_append_subset (cells_subset hm2) (cells_subset hm4))))
    · refine Or.inr ⟨⟨t.center_x, t.center_y + Int.fdiv t.height 2⟩, ?_, ?_⟩
      · simp [in_body]
        omega
      · rw [adjb_iff]
        dsimp only
        omega
    · refine Or.inr ⟨⟨b.center_x, b.center_y - Int.fdiv b.height 2⟩, ?_, ?_⟩
      · simp [in_body]
        omega
      · rw [adjb_iff]
        dsimp only
        omega

/-- Helper: the horizontally biased connection links the left node's body
to the right node's body whenever both emitted horizontal half-runs have
positive length. -/
theorem horizontal_connects
    (l r t b : Node)
    (hset : (t = l ∧ b = r) ∨ (t = r ∧ b = l))
    (hlx : l.x ≤ r.x)
    (hht : 1 ≤ l.height) (hhb : 1 ≤ r.height)
    (hwt : 1 ≤ l.width) (hwb : 1 ≤ r.width)
    (hpos : ∀ s ∈ create_horizontal_connection l r t b
        |r.center_x - l.center_x| |b.center_y - t.center_y|,
        s.type = SegType.horizontal → 1 ≤ s.length) :
    connects_bodies
      (segments_cells (create_horizontal_connection l r t b
        |r.center_x - l.center_x| |b.center_y - t.center_y|)) l r := by
  have eL : Int.fdiv l.width 2 = l.width / 2 := fdiv_two_eq _
  have eR : Int.fdiv r.width 2 = r.width / 2 := fdiv_two_eq _
  have eHL : Int.fdiv l.height 2 = l.height / 2 := fdiv_two_eq _
  have eHR : Int.fdiv r.height 2 = r.height / 2 := fdiv_two_eq _
  have eX : Int.fdiv |r.center_x - l.center_x| 2 = |r.center_x - l.center_x| / 2 :=
    fdiv_two_eq _
  have hcxl : l.center_x = l.x + l.width / 2 := by
    simp [Node.center_x, fdiv_two_eq]
  have hcxr : r.center_x = r.x + r.width / 2 := by
    simp [Node.center_x, fdiv_two_eq]
  have habs0 : 0 ≤ |r.center_x - l.center_x| := abs_nonneg _
  have hydv : |b.center_y - t.center_y| = |r.center_y - l.center_y| := by
    rcases hset with ⟨h1, h2⟩ | ⟨h1, h2⟩ <;> subst h1 <;> subst h2
    · rfl
    · exact abs_sub_comm _ _
  have habs0y : 0 ≤ |b.center_y - t.center_y| := abs_nonneg _
  rcases lt_trichotomy l.center_y r.center_y with hcy | hcy | hcy
  · -- left node strictly above right node: corners (urcorner, llcorner)
    have hcor : determine_horizontal_corner_types l r =
        (some CornerKind.urcorner, some CornerKind.llcorner) := by
      simp [determine_horizontal_corner_types, hcy, lt_asymm hcy]
    have hyd : |b.center_y - t.center_y| = r.center_y - l.center_y := by
      rw [hydv]
      exact abs_of_nonneg (by omega)
    have hvy : (if b.center_y < t.center_y then b.center_y else t.center_y + 1) =
          l.center_y + 1 ∨
        (if b.center_y < t.center_y then b.center_y else t.center_y + 1) =
          l.center_y := by
      rcases hset with ⟨h1, h2⟩ | ⟨h1, h2⟩ <;> subst h1 <;> subst h2
      · left
        rw [if_neg (lt_asymm hcy)]
      · right
        rw [if_pos hcy]
    have hm1 : (⟨.horizontal, l.center_x + Int.fdiv l.width 2, l.center_y,
        Int.fdiv |r.center_x - l.center_x| 2 - Int.fdiv l.width 2⟩ :
          LineSegment) ∈ create_horizontal_connection l r t b
        |r.center_x - l.center_x| |b.center_y - t.center_y| := by
      simp [create_horizontal_connection, hcor]
    have hm5 : (⟨.horizontal,
        r.center_x - (|r.center_x - l.center_x| -
          Int.fdiv |r.center_x - l.center_x| 2 - Int.fdiv r.width 2 - 1) -
          Int.fdiv r.width 2,
        r.center_y,
        |r.center_x - l.center_x| - Int.fdiv |r.center_x - l.center_x| 2 -
          Int.fdiv r.width 2 - 1⟩ : LineSegment) ∈
        create_horizontal_connection l r t b
        |r.center_x - l.center_x| |b.center_y - t.center_y| := by
      simp [create_horizontal_connection, hcor]
    have hL1 : 1 ≤ Int.fdiv |r.center_x - l.center_x| 2 - Int.fdiv l.width 2 :=
      hpos _ hm1 rfl
    have hL2 : 1 ≤ |r.center_x - l.center_x| - Int.fdiv |r.center_x - l.center_x| 2 -
        Int.fdiv r.width 2 - 1 := hpos _ hm5 rfl
    have hlr : l.center_x ≤ r.center_x := by
      by_contra hlt
      push_neg at hlt
      have h1 : |r.center_x - l.center_x| = l.center_x - r.center_x := by
        rw [abs_sub_comm]
        exact abs_of_nonneg (by omega)
      omega
    have habs : |r.center_x - l.center_x| = r.center_x - l.center_x :=
      abs_of_nonneg (by omega)
    have hm2 : (⟨.vertical,
        r.center_x - (|r.center_x - l.center_x| -
          Int.fdiv |r.center_x - l.center_x| 2 - Int.fdiv r.width 2) -
          Int.fdiv r.width 2,
        (if b.center_y < t.center_y then b.center_y else t.center_y + 1),
        |(if b.center_y < t.center_y then b.center_y else t.center_y + 1) +
          |b.center_y - t.center_y| -
          (if b.center_y < t.center_y then b.center_y else t.center_y + 1)|⟩ :
          LineSegment) ∈ create_horizontal_connection l r t b
        |r.center_x - l.center_x| |b.center_y - t.center_y| := by
      simp [create_horizontal_connection, hcor]
    have hm3 : (⟨.corner CornerKind.urcorner,
        l.center_x + Int.fdiv l.width 2 +
          (Int.fdiv |r.center_x - l.center_x| 2 - Int.fdiv l.width 2),
        l.center_y, 0⟩ : LineSegment) ∈ create_horizontal_connection l r t b
        |r.center_x - l.center_x| |b.center_y - t.center_y| := by
      simp [create_horizontal_connection, hcor]
    have hm4 : (⟨.corner CornerKind.llcorner,
        r.center_x - (|r.center_x - l.center_x| -
          Int.fdiv |r.center_x - l.center_x| 2 - Int.fdiv r.width 2 - 1) -
          Int.fdiv r.width 2 - 1,
        r.center_y, 0⟩ : LineSegment) ∈ create_horizontal_connection l r t b
        |r.center_x - l.center_x| |b.center_y - t.center_y| := by
      simp [create_horizontal_connection, hcor]
    have hcb : 1 ≤ |(if b.center_y < t.center_y then b.center_y else t.center_y + 1) +
        |b.center_y - t.center_y| -
        (if b.center_y < t.center_y then b.center_y else t.center_y + 1)| := by
      have h1 : (if b.center_y < t.center_y then b.center_y else t.center_y + 1) +
          |b.center_y - t.center_y| -
          (if b.center_y < t.center_y then b.center_y else t.center_y + 1) =
          |b.center_y - t.center_y| := by ring
      rw [h1, abs_of_nonneg habs0y]
      omega
    have hcbv : |(if b.center_y < t.center_y then b.center_y else t.center_y + 1) +
        |b.center_y - t.center_y| -
        (if b.center_y < t.center_y then b.center_y else t.center_y + 1)| =
        |b.center_y - t.center_y| := by
      have h1 : (if b.center_y < t.center_y then b.center_y else t.center_y + 1) +
          |b.center_y - t.center_y| -
          (if b.center_y < t.center_y then b.center_y else t.center_y + 1) =
          |b.center_y - t.center_y| := by ring
      rw [h1, abs_of_nonneg habs0y]
    refine connects_of_five _ l r
      (LineSegment.cells ⟨.horizontal, l.center_x + Int.fdiv l.width 2, l.center_y,
        Int.fdiv |r.center_x - l.center_x| 2 - Int.fdiv l.width 2⟩)
      (LineSegment.cells ⟨.corner CornerKind.urcorner,
        l.center_x + Int.fdiv l.width 2 +
          (Int.fdiv |r.center_x - l.center_x| 2 - Int.fdiv l.width 2),
        l.center_y, 0⟩)
      (LineSegment.cells ⟨.vertical,
        r.center_x - (|r.center_x - l.center_x| -
          Int.fdiv |r.center_x - l.center_x| 2 - Int.fdiv r.width 2) -
          Int.fdiv r.width 2,
        (if b.center_y < t.center_y then b.center_y else t.center_y + 1),
        |(if b.center_y < t.center_y then b.center_y else t.center_y + 1) +
          |b.center_y - t.center_y| -
          (if b.center_y < t.center_y then b.center_y else t.center_y + 1)|⟩)
      (LineSegment.cells ⟨.corner CornerKind.llcorner,
        r.center_x - (|r.center_x - l.center_x| -
          Int.fdiv |r.center_x - l.center_x| 2 - Int.fdiv r.width 2 - 1) -
          Int.fdiv r.width 2 - 1,
        r.center_y, 0⟩)
      (LineSegment.cells ⟨.horizontal,
        r.center_x - (|r.center_x - l.center_x| -
          Int.fdiv |r.center_x - l.center_x| 2 - Int.fdiv r.width 2 - 1) -
          Int.fdiv r.width 2,
        r.center_y,
        |r.center_x - l.center_x| - Int.fdiv |r.center_x - l.center_x| 2 -
          Int.fdiv r.width 2 - 1⟩)
      _ _ _ _ _ _ _ _ _ _
      (hrun_head _ _ _ hL1) (hrun_last _ _ _ hL1)
      (corner_head _ _ _ _) (corner_last _ _ _ _)
      (vrun_head _ _ _ hcb) (vrun_last _ _ _ hcb)
      (corner_head _ _ _ _) (corner_last _ _ _ _)
      (hrun_head _ _ _ hL2) (hrun_last _ _ _ hL2)
      (chain'_cells _) (chain'_cells _) (chain'_cells _) (chain'_cells _)
      (chain'_cells _)
      ?_ ?_ ?_ ?_ ?_ ?_ ?_
    · rw [adjb_iff]
      dsimp only
      omega
    · rw [adjb_iff]
      dsimp only
      omega
    · rw [adjb_iff]
      dsimp only
      omega
    · rw [adjb_iff]
      dsimp only
      omega
    · refine mem_append_subset (cells_subset hm1) (mem_append_subset
        (cells_subset hm3) (mem_append_subset (cells_subset hm2)
          (mem_append_subset (cells_subset hm4) (cells_subset hm5))))
    · exact Or.inl (by simp [in_body]; omega)
    · refine Or.inr ⟨⟨r.center_x - Int.fdiv r.width 2, r.center_y⟩, ?_, ?_⟩
      · simp [in_body]
        omega
      · rw [adjb_iff]
        dsimp only
        omega
  · -- equal centers on the cross axis: no corners, straight two-run path
    have hcor : determine_horizontal_corner_types l r = (none, none) := by
      simp [determine_horizontal_corner_types, hcy]
    have hm1 : (⟨.horizontal, l.center_x + Int.fdiv l.width 2, l.center_y,
        Int.fdiv |r.center_x - l.center_x| 2 - Int.fdiv l.width 2⟩ :
          LineSegment) ∈ create_horizontal_connection l r t b
        |r.center_x - l.center_x| |b.center_y - t.center_y| := by
      simp [create_horizontal_connection, hcor]
    have hm5 : (⟨.horizontal,
        r.center_x - (|r.center_x - l.center_x| -
          Int.fdiv |r.center_x - l.center_x| 2 - Int.fdiv r.width 2) -
          Int.fdiv r.width 2,
        r.center_y,
        |r.center_x - l.center_x| - Int.fdiv |r.center_x - l.center_x| 2 -
          Int.fdiv r.width 2⟩ : LineSegment) ∈
        create_horizontal_connection l r t b
        |r.center_x - l.center_x| |b.center_y - t.center_y| := by
      simp [create_horizontal_connection, hcor]
    have hL1 : 1 ≤ Int.fdiv |r.center_x - l.center_x| 2 - Int.fdiv l.width 2 :=
      hpos _ hm1 rfl
    have hL2 : 1 ≤ |r.center_x - l.center_x| - Int.fdiv |r.center_x - l.center_x| 2 -
        Int.fdiv r.width 2 := hpos _ hm5 rfl
    have hlr : l.center_x ≤ r.center_x := by
      by_contra hlt
      push_neg at hlt
      have h1 : |r.center_x - l.center_x| = l.center_x - r.center_x := by
        rw [abs_sub_comm]
        exact abs_of_nonneg (by omega)
      omega
    have habs : |r.center_x - l.center_x| = r.center_x - l.center_x :=
      abs_of_nonneg (by omega)
    refine connects_of_two _ l r
      (LineSegment.cells ⟨.horizontal, l.center_x + Int.fdiv l.width 2, l.center_y,
        Int.fdiv |r.center_x - l.center_x| 2 - Int.fdiv l.width 2⟩)
      (LineSegment.cells ⟨.horizontal,
        r.center_x - (|r.center_x - l.center_x| -
          Int.fdiv |r.center_x - l.center_x| 2 - Int.fdiv r.width 2) -
          Int.fdiv r.width 2,
        r.center_y,
        |r.center_x - l.center_x| - Int.fdiv |r.center_x - l.center_x| 2 -
          Int.fdiv r.width 2⟩)
      _ _ _ _
      (hrun_head _ _ _ hL1) (hrun_last _ _ _ hL1)
      (hrun_head _ _ _ hL2) (hrun_last _ _ _ hL2)
      (chain'_cells _) (chain'_cells _)
      ?_ ?_ ?_ ?_
    · rw [adjb_iff]
      dsimp only
      omega
    · exact mem_append_subset (cells_subset hm1) (cells_subset hm5)
    · exact Or.inl (by simp [in_body]; omega)
    · refine Or.inr ⟨⟨r.center_x - Int.fdiv r.width 2, r.center_y⟩, ?_, ?_⟩
      · simp [in_body]
        omega
      · rw [adjb_iff]
        dsimp only
        omega
  · -- left node strictly below right node: corners (lrcorner, ulcorner)
    have hcor : determine_horizontal_corner_types l r =
        (some CornerKind.lrcorner, some CornerKind.ulcorner) := by
      simp [determine_horizontal_corner_types, hcy]
    have hyd : |b.center_y - t.center_y| = l.center_y - r.center_y := by
      rw [hydv, abs_sub_comm]
      exact abs_of_nonneg (by omega)
    have hvy : (if b.center_y < t.center_y then b.center_y else t.center_y + 1) =
          r.center_y + 1 ∨
        (if b.center_y < t.center_y then b.center_y else t.center_y + 1) =
          r.center_y := by
      rcases hset with ⟨h1, h2⟩ | ⟨h1, h2⟩ <;> subst h1 <;> subst h2
      · right
        rw [if_pos hcy]
      · left
        rw [if_neg (lt_asymm hcy)]
    have hm1 : (⟨.horizontal, l.center_x + Int.fdiv l.width 2, l.center_y,
        Int.fdiv |r.center_x - l.center_x| 2 - Int.fdiv l.width 2⟩ :
          LineSegment) ∈ create_horizontal_connection l r t b
        |r.center_x - l.center_x| |b.center_y - t.center_y| := by
      simp [create_horizontal_connection, hcor]
    have hm5 : (⟨.horizontal,
        r.center_x - (|r.center_x - l.center_x| -
          Int.fdiv |r.center_x - l.center_x| 2 - Int.fdiv r.width 2 - 1) -
          Int.fdiv r.width 2,
        r.center_y,
        |r.center_x - l.center_x| - Int.fdiv |r.center_x - l.center_x| 2 -
          Int.fdiv r.width 2 - 1⟩ : LineSegment) ∈
        create_horizontal_connection l r t b
        |r.center_x - l.center_x| |b.center_y - t.center_y| := by
      simp [create_horizontal_connection, hcor]
    have hL1 : 1 ≤ Int.fdiv |r.center_x - l.center_x| 2 - Int.fdiv l.width 2 :=
      hpos _ hm1 rfl
    have hL2 : 1 ≤ |r.center_x - l.center_x| - Int.fdiv |r.center_x - l.center_x| 2 -
        Int.fdiv r.width 2 - 1 := hpos _ hm5 rfl
    have hlr : l.center_x ≤ r.center_x := by
      by_contra hlt
      push_neg at hlt
      have h1 : |r.center_x - l.center_x| = l.center_x - r.center_x := by
        rw [abs_sub_comm]
        exact abs_of_nonneg (by omega)
      omega
    have habs : |r.center_x - l.center_x| = r.center_x - l.center_x :=
      abs_of_nonneg (by omega)
    have hm2 : (⟨.vertical,
        r.center_x - (|r.center_x - l.center_x| -
          Int.fdiv |r.center_x - l.center_x| 2 - Int.fdiv r.width 2) -
          Int.fdiv r.width 2,
        (if b.center_y < t.center_y then b.center_y else t.center_y + 1),
        |(if b.center_y < t.center_y then b.center_y else t.center_y + 1) +
          |b.center_y - t.center_y| -
          (if b.center_y < t.center_y then b.center_y else t.center_y + 1)|⟩ :
          LineSegment) ∈ create_horizontal_connection l r t b
        |r.center_x - l.center_x| |b.center_y - t.center_y| := by
      simp [create_horizontal_connection, hcor]
    have hm3 : (⟨.corner CornerKind.lrcorner,
        l.center_x + Int.fdiv l.width 2 +
          (Int.fdiv |r.center_x - l.center_x| 2 - Int.fdiv l.width 2),
        l.center_y, 0⟩ : LineSegment) ∈ create_horizontal_connection l r t b
        |r.center_x - l.center_x| |b.center_y - t.center_y| := by
      simp [create_horizontal_connection, hcor]
    have hm4 : (⟨.corner CornerKind.ulcorner,
        r.center_x - (|r.center_x - l.center_x| -
          Int.fdiv |r.center_x - l.center_x| 2 - Int.fdiv r.width 2 - 1) -
          Int.fdiv r.width 2 - 1,
        r.center_y, 0⟩ : LineSegment) ∈ create_horizontal_connection l r t b
        |r.center_x - l.center_x| |b.center_y - t.center_y| := by
      simp [create_horizontal_connection, hcor]
    have hcb : 1 ≤ |(if b.center_y < t.center_y then b.center_y else t.center_y + 1) +
        |b.center_y - t.center_y| -
        (if b.center_y < t.center_y then b.center_y else t.center_y + 1)| := by
      have h1 : (if b.center_y < t.center_y then b.center_y else t.center_y + 1) +
          |b.center_y - t.center_y| -
          (if b.center_y < t.center_y then b.center_y else t.center_y + 1) =
          |b.center_y - t.center_y| := by ring
      rw [h1, abs_of_nonneg habs0y]
      omega
    have hcbv : |(if b.center_y < t.center_y then b.center_y else t.center_y + 1) +
        |b.center_y - t.center_y| -
        (if b.center_y < t.center_y then b.center_y else t.center_y + 1)| =
        |b.center_y - t.center_y| := by
      have h1 : (if b.center_y < t.center_y then b.center_y else t.center_y + 1) +
          |b.center_y - t.center_y| -
          (if b.center_y < t.center_y then b.center_y else t.center_y + 1) =
          |b.center_y - t.center_y| := by ring
      rw [h1, abs_of_nonneg habs0y]
    refine connects_of_five _ l r
      (LineSegment.cells ⟨.horizontal, l.center_x + Int.fdiv l.width 2, l.center_y,
        Int.fdiv |r.center_x - l.center_x| 2 - Int.fdiv l.width 2⟩)
      (LineSegment.cells ⟨.corner CornerKind.lrcorner,
        l.center_x + Int.fdiv l.width 2 +
          (Int.fdiv |r.center_x - l.center_x| 2 - Int.fdiv l.width 2),
        l.center_y, 0⟩)
      (LineSegment.cells ⟨.vertical,
        r.center_x - (|r.center_x - l.center_x| -
          Int.fdiv |r.center_x - l.center_x| 2 - Int.fdiv r.width 2) -
          Int.fdiv r.width 2,
        (if b.center_y < t.center_y then b.center_y else t.center_y + 1),
        |(if b.center_y < t.center_y then b.center_y else t.center_y + 1) +
          |b.center_y - t.center_y| -
          (if b.center_y < t.center_y then b.center_y else t.center_y + 1)|⟩).reverse
      (LineSegment.cells ⟨.corner CornerKind.ulcorner,
        r.center_x - (|r.center_x - l.center_x| -
          Int.fdiv |r.center_x - l.center_x| 2 - Int.fdiv r.width 2 - 1) -
          Int.fdiv r.width 2 - 1,
        r.center_y, 0⟩)
      (LineSegment.cells ⟨.horizontal,
        r.center_x - (|r.center_x - l.center_x| -
          Int.fdiv |r.center_x - l.center_x| 2 - Int.fdiv r.width 2 - 1) -
          Int.fdiv r.width 2,
        r.center_y,
        |r.center_x - l.center_x| - Int.fdiv |r.center_x - l.center_x| 2 -
          Int.fdiv r.width 2 - 1⟩)
      _ _ _ _ _ _ _ _ _ _
      (hrun_head _ _ _ hL1) (hrun_last _ _ _ hL1)
      (corner_head _ _ _ _) (corner_last _ _ _ _)
      (by rw [List.head?_reverse]; exact vrun_last _ _ _ hcb)
      (by rw [List.getLast?_reverse]; exact vrun_head _ _ _ hcb)
      (corner_head _ _ _ _) (corner_last _ _ _ _)
      (hrun_head _ _ _ hL2) (hrun_last _ _ _ hL2)
      (chain'_cells _) (chain'_cells _) (chain'_cells_reverse _) (chain'_cells _)
      (chain'_cells _)
      ?_ ?_ ?_ ?_ ?_ ?_ ?_
    · rw [adjb_iff]
      dsimp only
      omega
    · rw [adjb_iff]
      dsimp only
      omega
    · rw [adjb_iff]
      dsimp only
      omega
    · rw [adjb_iff]
      dsimp only
      omega
    · refine mem_append_subset (cells_subset hm1) (mem_append_subset
        (cells_subset hm3) (mem_append_subset
          (fun c hc => cells_subset hm2 c (List.mem_reverse.mp hc))
          (mem_append_subset (cells_subset hm4) (cells_subset hm5))))
    · exact Or.inl (by simp [in_body]; omega)
    · refine Or.inr ⟨⟨r.center_x - Int.fdiv r.width 2, r.center_y⟩, ?_, ?_⟩
      · simp [in_body]
        omega
      · rw [adjb_iff]
        dsimp only
        omega

/-- Helper: the vertical connector always emits exactly three straight
runs and at most two corner glyphs. -/
theorem vertical_counts (l r t b : Node) (xd yd : Int) :
    run_count (create_vertical_connection l r t b xd yd) = 3 ∧
    corner_count (create_vertical_connection l r t b xd yd) ≤ 2 := by
  rcases lt_trichotomy t.center_x b.center_x with h | h | h
  · simp [create_vertical_connection, determine_corner_types, run_count,
      corner_count, h, lt_asymm h]
  · simp [create_vertical_connection, determine_corner_types, run_count,
      corner_count, h]
  · simp [create_vertical_connection, determine_corner_types, run_count,
      corner_count, h, lt_asymm h]

/-- Helper: the horizontal connector always emits exactly three straight
runs and at most two corner glyphs. -/
theorem horizontal_counts (l r t b : Node) (xd yd : Int) :
    run_count (create_horizontal_connection l r t b xd yd) = 3 ∧
    corner_count (create_horizontal_connection l r t b xd yd) ≤ 2 := by
  rcases lt_trichotomy l.center_y r.center_y with h | h | h
  · simp [create_horizontal_connection, determine_horizontal_corner_types,
      run_count, corner_count, h, lt_asymm h]
  · simp [create_horizontal_connection, determine_horizontal_corner_types,
      run_count, corner_count, h]
  · simp [create_horizontal_connection, determine_horizontal_corner_types,
      run_count, corner_count, h, lt_asymm h]

/-- Claim C5 as amended: for every pair of nodes the returned segment
list contains exactly three straight-run segments (one crossbar and two
half-runs; a run of non-positive length draws nothing) and at most two
corner-glyph segments, and whenever both half-runs of the chosen
connector have positive computed length the drawn cells, in order, form
a single continuous path (consecutive cells equal or four-adjacent) from
a cell on the source node's boundary to a cell on the target node's
boundary. -/
theorem claim_C5_amended (n1 n2 : Node)
    (hw1 : 1 ≤ n1.width) (hh1 : 1 ≤ n1.height)
    (hw2 : 1 ≤ n2.width) (hh2 : 1 ≤ n2.height)
    (hpos : ∀ s ∈ get_line_breakdown n1 n2,
        s.type = half_run_type n1 n2 → 1 ≤ s.length) :
    run_count (get_line_breakdown n1 n2) = 3 ∧
    corner_count (get_line_breakdown n1 n2) ≤ 2 ∧
    connects_bodies (segments_cells (get_line_breakdown n1 n2)) n1 n2 := by
  by_cases hb : has_vertical_bias (edge_x_diff n1 n2) (edge_y_diff n1 n2) = true
  · have hb' : has_vertical_bias
        |(determine_relative_nodes n1 n2).2.1.center_x -
          (determine_relative_nodes n1 n2).1.center_x|
        |(determine_relative_nodes n1 n2).2.2.2.center_y -
          (determine_relative_nodes n1 n2).2.2.1.center_y| = true := by
      simpa [edge_x_diff, edge_y_diff] using hb
    have hhr : half_run_type n1 n2 = SegType.vertical := by
      simp [half_run_type, hb]
    have hbd : get_line_breakdown n1 n2 = create_vertical_connection
        (determine_relative_nodes n1 n2).1 (determine_relative_nodes n1 n2).2.1
        (determine_relative_nodes n1 n2).2.2.1 (determine_relative_nodes n1 n2).2.2.2
        |(determine_relative_nodes n1 n2).2.1.center_x -
          (determine_relative_nodes n1 n2).1.center_x|
        |(determine_relative_nodes n1 n2).2.2.2.center_y -
          (determine_relative_nodes n1 n2).2.2.1.center_y| := by
      simp [get_line_breakdown, hb']
    rw [hbd, hhr] at hpos
    rw [hbd]
    refine ⟨(vertical_counts _ _ _ _ _ _).1, (vertical_counts _ _ _ _ _ _).2, ?_⟩
    have hset : ((determine_relative_nodes n1 n2).1 =
          (determine_relative_nodes n1 n2).2.2.1 ∧
        (determine_relative_nodes n1 n2).2.1 =
          (determine_relative_nodes n1 n2).2.2.2) ∨
        ((determine_relative_nodes n1 n2).1 =
          (determine_relative_nodes n1 n2).2.2.2 ∧
        (determine_relative_nodes n1 n2).2.1 =
          (determine_relative_nodes n1 n2).2.2.1) := by
      by_cases hx : n1.x < n2.x <;> by_cases hy : n1.y < n2.y <;>
        simp [determine_relative_nodes, hx, hy]
    have hty : (determine_relative_nodes n1 n2).2.2.1.y ≤
        (determine_relative_nodes n1 n2).2.2.2.y := by
      by_cases hy : n1.y < n2.y <;> simp [determine_relative_nodes, hy] <;> omega
    have hht : 1 ≤ (determine_relative_nodes n1 n2).2.2.1.height := by
      by_cases hy : n1.y < n2.y <;> simp [determine_relative_nodes, hy] <;> omega
    have hhb : 1 ≤ (determine_relative_nodes n1 n2).2.2.2.height := by
      by_cases hy : n1.y < n2.y <;> simp [determine_relative_nodes, hy] <;> omega
    have hwt : 1 ≤ (determine_relative_nodes n1 n2).2.2.1.width := by
      by_cases hy : n1.y < n2.y <;> simp [determine_relative_nodes, hy] <;> omega
    have hwb : 1 ≤ (determine_relative_nodes n1 n2).2.2.2.width := by
      by_cases hy : n1.y < n2.y <;> simp [determine_relative_nodes, hy] <;> omega
    have hcon := vertical_connects _ _ _ _ hset hty hht hhb hwt hwb hpos
    by_cases hy : n1.y < n2.y
    · have h1 : (determine_relative_nodes n1 n2).2.2.1 = n1 := by
        simp [determine_relative_nodes, hy]
      have h2 : (determine_relative_nodes n1 n2).2.2.2 = n2 := by
        simp [determine_relative_nodes, hy]
      rw [h1, h2]
      rw [h1, h2] at hcon
      exact hcon
    · have h1 : (determine_relative_nodes n1 n2).2.2.1 = n2 := by
        simp [determine_relative_nodes, hy]
      have h2 : (determine_relative_nodes n1 n2).2.2.2 = n1 := by
        simp [determine_relative_nodes, hy]
      rw [h1, h2]
      rw [h1, h2] at hcon
      exact connects_bodies_symm hcon
  · have hb'' : has_vertical_bias (edge_x_diff n1 n2) (edge_y_diff n1 n2) = false := by
      simpa using hb
    have hb' : has_vertical_bias
        |(determine_relative_nodes n1 n2).2.1.center_x -
          (determine_relative_nodes n1 n2).1.center_x|
        |(determine_relative_nodes n1 n2).2.2.2.center_y -
          (determine_relative_nodes n1 n2).2.2.1.center_y| = false := by
      simpa [edge_x_diff, edge_y_diff] using hb''
    have hhr : half_run_type n1 n2 = SegType.horizontal := by
      simp [half_run_type, hb'']
    have hbd : get_line_breakdown n1 n2 = create_horizontal_connection
        (determine_relative_nodes n1 n2).1 (determine_relative_nodes n1 n2).2.1
        (determine_relative_nodes n1 n2).2.2.1 (determine_relative_nodes n1 n2).2.2.2
        |(determine_relative_nodes n1 n2).2.1.center_x -
          (determine_relative_nodes n1 n2).1.center_x|
        |(determine_relative_nodes n1 n2).2.2.2.center_y -
          (determine_relative_nodes n1 n2).2.2.1.center_y| := by
      simp [get_line_breakdown, hb']
    rw [hbd, hhr] at hpos
    rw [hbd]
    refine ⟨(horizontal_counts _ _ _ _ _ _).1, (horizontal_counts _ _ _ _ _ _).2, ?_⟩
    have hset : ((determine_relative_nodes n1 n2).2.2.1 =
          (determine_relative_nodes n1 n2).1 ∧
        (determine_relative_nodes n1 n2).2.2.2 =
          (determine_relative_nodes n1 n2).2.1) ∨
        ((determine_relative_nodes n1 n2).2.2.1 =
          (determine_relative_nodes n1 n2).2.1 ∧
        (determine_relative_nodes n1 n2).2.2.2 =
          (determine_relative_nodes n1 n2).1) := by
      by_cases hx : n1.x < n2.x <;> by_cases hy : n1.y < n2.y <;>
        simp [determine_relative_nodes, hx, hy]
    have hlx : (determine_relative_nodes n1 n2).1.x ≤
        (determine_relative_nodes n1 n2).2.1.x := by
      by_cases hx : n1.x < n2.x <;> simp [determine_relative_nodes, hx] <;> omega
    have hht : 1 ≤ (determine_relative_nodes n1 n2).1.height := by
      by_cases hx : n1.x < n2.x <;> simp [determine_relative_nodes, hx] <;> omega
    have hhb : 1 ≤ (determine_relative_nodes n1 n2).2.1.height := by
      by_cases hx : n1.x < n2.x <;> simp [determine_relative_nodes, hx] <;> omega
    have hwt : 1 ≤ (determine_relative_nodes n1 n2).1.width := by
      by_cases hx : n1.x < n2.x <;> simp [determine_relative_nodes, hx] <;> omega
    have hwb : 1 ≤ (determine_relative_nodes n1 n2).2.1.width := by
      by_cases hx : n1.x < n2.x <;> simp [determine_relative_nodes, hx] <;> omega
    have hcon := horizontal_connects _ _ _ _ hset hlx hht hhb hwt hwb hpos
    by_cases hx : n1.x < n2.x
    · have h1 : (determine_relative_nodes n1 n2).1 = n1 := by
        simp [determine_relative_nodes, hx]
      have h2 : (determine_relative_nodes n1 n2).2.1 = n2 := by
        simp [determine_relative_nodes, hx]
      rw [h1, h2]
      rw [h1, h2] at hcon
      exact hcon
    · have h1 : (determine_relative_nodes n1 n2).1 = n2 := by
        simp [determine_relative_nodes, hx]
      have h2 : (determine_relative_nodes n1 n2).2.1 = n1 := by
        simp [determine_relative_nodes, hx]
      rw [h1, h2]
      rw [h1, h2] at hcon
      exact connects_bodies_symm hcon

/-- Claim C5 amended, witness: the concrete cornered vertical connection
has three runs, two corners, and a connecting path. -/
theorem claim_C5_amended_witness :
    run_count (get_line_breakdown exTopK exBottomK) = 3 ∧
    corner_count (get_line_breakdown exTopK exBottomK) ≤ 2 ∧
    connects_bodies (segments_cells (get_line_breakdown exTopK exBottomK))
      exTopK exBottomK :=
  claim_C5_amended exTopK exBottomK (by decide) (by decide) (by decide) (by decide)
    (by decide)

end Graphos
